import Mathlib

/-!
Shallow embedding of the document structuring and normalization engine of the
Pepsi_Order repository (`backend/app/services/ocr_service.py` and
`backend/app/utils/normalization.py`), together with theorems settling the
frozen claims about it.

Conventions of the embedding:
* Python strings are Lean `String`s; most helpers work on `List Char`.
* Python `float` quantities (confidences, probabilities, geometry) are
  modelled as exact rationals `ℚ`; no claim depends on binary rounding.
* `decimal.Decimal` is modelled by `PyDecimal` (an integer mantissa with a
  base-10 exponent), which reproduces exact decimal arithmetic.
* Python `dict[str, Any]` metadata is modelled by an insertion-ordered
  association list with Python dict assignment/update semantics.
* `None`/falsy-guard patterns are modelled with `Option` and explicit
  emptiness checks, mirroring each `if not x:` of the source.
* All definitions are structurally recursive so concrete runs reduce inside
  the kernel.
-/

namespace PepsiOrder

/-! ### Basic string helpers (Python `str` semantics on ASCII inputs) -/

/-- Python `\s` / `str.strip` whitespace, restricted to the ASCII range that
occurs in the modelled documents. -/
def isPySpace (c : Char) : Bool :=
  c = ' ' || c = '\t' || c = '\n' || c = '\r' || c = '\x0b' || c = '\x0c'

/-- ASCII lower-casing, as `str.lower` acts on the ASCII inputs involved. -/
def lowerChar (c : Char) : Char :=
  if 'A' ≤ c && c ≤ 'Z' then Char.ofNat (c.toNat + 32) else c

/-- ASCII upper-casing (for `str.upper`). -/
def upperChar (c : Char) : Char :=
  if 'a' ≤ c && c ≤ 'z' then Char.ofNat (c.toNat - 32) else c

def lowerStr (s : String) : String := ⟨s.data.map lowerChar⟩

def upperStr (s : String) : String := ⟨s.data.map upperChar⟩

/-- Python `str.strip()`. -/
def pyStrip (s : String) : String :=
  ⟨((s.data.dropWhile isPySpace).reverse.dropWhile isPySpace).reverse⟩

def isDigitChar (c : Char) : Bool := '0' ≤ c && c ≤ '9'

/-- Python `\w` (word character) over the ASCII inputs involved. -/
def isWordChar (c : Char) : Bool :=
  isDigitChar c || ('a' ≤ c && c ≤ 'z') || ('A' ≤ c && c ≤ 'Z') || c = '_'

/-- Group a character list into maximal runs of equal `isPySpace`
classification, tagged with that classification. -/
def groupSpaceRuns (l : List Char) : List (Bool × List Char) :=
  l.foldr
    (fun c acc =>
      match acc with
      | [] => [(isPySpace c, [c])]
      | (b, run) :: rest =>
        if isPySpace c = b then (b, c :: run) :: rest
        else (isPySpace c, [c]) :: (b, run) :: rest)
    []

/-- Maximal runs of non-whitespace characters
(`re.findall(r"\S+", text)`). -/
def splitNonSpaceRuns (l : List Char) : List (List Char) :=
  (groupSpaceRuns l).filterMap fun br => if br.1 then none else some br.2

/-- `re.split(r"\s{2,}", text)`: whitespace runs of length ≥ 2 are
separators; everything between them (single spaces included) stays inside one
segment.  Empty segments at the ends or between adjacent separators are kept,
as `re.split` keeps them. -/
def splitOnDoubleWs (l : List Char) : List (List Char) :=
  (groupSpaceRuns l).foldr
    (fun br segs =>
      if br.1 && decide (2 ≤ br.2.length) then [] :: segs
      else
        match segs with
        | [] => [br.2]
        | s :: ss => (br.2 ++ s) :: ss)
    [[]]

/-- `re.search(r"\s{2,}", text)` as a Boolean: some whitespace run of
length ≥ 2 occurs. -/
def hasDoubleWs (l : List Char) : Bool :=
  (groupSpaceRuns l).any fun br => br.1 && decide (2 ≤ br.2.length)

/-- Value of a list of ASCII digit chars (`int(...)` on a digit group). -/
def digitsToNat (l : List Char) : Nat :=
  l.foldl (fun acc c => acc * 10 + (c.toNat - '0'.toNat)) 0

/-! ### `decimal.Decimal` model

`decimal.Decimal` values reached by the code are always finite decimals; a
value is an integer mantissa `m` together with a base-10 exponent `e`,
denoting `m / 10 ^ e`.  Arithmetic (`+`, `abs`, comparison) is exact, as in
the `decimal` module. -/

structure PyDecimal where
  m : Int
  e : Nat
  deriving Repr, DecidableEq

namespace PyDecimal

def toRat (d : PyDecimal) : ℚ := (d.m : ℚ) / ((10 : ℚ) ^ d.e)

def add (a b : PyDecimal) : PyDecimal :=
  let e := max a.e b.e
  ⟨a.m * 10 ^ (e - a.e) + b.m * 10 ^ (e - b.e), e⟩

def sub (a b : PyDecimal) : PyDecimal :=
  let e := max a.e b.e
  ⟨a.m * 10 ^ (e - a.e) - b.m * 10 ^ (e - b.e), e⟩

def abs (a : PyDecimal) : PyDecimal := ⟨|a.m|, a.e⟩

/-- `a <= b` on decimals (exact comparison of values). -/
def le (a b : PyDecimal) : Bool :=
  a.m * 10 ^ b.e ≤ b.m * 10 ^ a.e

/-- Value equality of decimals (this is `==` of the `decimal` module, which
compares values, not representations). -/
def valueEq (a b : PyDecimal) : Bool :=
  a.m * 10 ^ b.e = b.m * 10 ^ a.e

end PyDecimal

/-- `Decimal(text)` restricted to the character set the cleaned inputs can
contain (digits, `.`, `-`): an optional leading minus sign, then digits with
at most one decimal point and at least one digit overall.  Everything else
(including interior `-`, several dots, the empty string) raises
`InvalidOperation` in Python and is `none` here. -/
def parsePyDecimal (l : List Char) : Option PyDecimal :=
  let (sign, rest) : Int × List Char :=
    match l with
    | '-' :: r => (-1, r)
    | r => (1, r)
  let intPart := rest.takeWhile isDigitChar
  let rest' := rest.dropWhile isDigitChar
  match rest' with
  | [] =>
    if intPart.isEmpty then none
    else some ⟨sign * (digitsToNat intPart : Int), 0⟩
  | '.' :: frac =>
    if frac.all isDigitChar && !(intPart.isEmpty && frac.isEmpty) then
      some ⟨sign * (digitsToNat (intPart ++ frac) : Int), frac.length⟩
    else none
  | _ => none

/-- Mantissa with its trailing zeros moved into the exponent (the effect of
`format(value, "f")` followed by `rstrip("0")`). -/
def stripTrailingZeros : Int → Nat → PyDecimal
  | m, 0 => ⟨m, 0⟩
  | m, e + 1 =>
    if m % 10 = 0 && m ≠ 0 then stripTrailingZeros (m / 10) e else ⟨m, e + 1⟩

/-- Decimal digits of a natural number, most significant first. -/
def natDigits (n : Nat) : List Char :=
  (Nat.toDigits 10 n)

/-- `_decimal_to_str` (normalization.py): `format(value, "f")`, strip
trailing fractional zeros and a trailing dot, defaulting to `"0"`. -/
def decimalToStr (value : Option PyDecimal) : Option String :=
  match value with
  | none => none
  | some d =>
    let c := stripTrailingZeros d.m d.e
    let n := c.m.natAbs
    let ds := natDigits n
    let digits : List Char :=
      if c.e = 0 then ds
      else
        let padded := List.replicate (c.e + 1 - ds.length) '0' ++ ds
        padded.take (padded.length - c.e) ++ '.' :: padded.drop (padded.length - c.e)
    let text := if c.m < 0 then '-' :: digits else digits
    if c.m = 0 then some "0" else some ⟨text⟩

/-! ### Shared data shapes (`app/schemas.py`, the parts the claims need) -/

/-- Values stored in `dict[str, Any]` metadata/hints. -/
inductive MetaVal where
  | s (v : String)
  | q (v : ℚ)
  | b (v : Bool)
  | n (v : Nat)
  | nullv
  deriving Repr, DecidableEq

/-- Insertion-ordered Python dict with string keys. -/
abbrev Meta := List (String × MetaVal)

/-- Python dict assignment `d[k] = v`: overwrite in place, else append. -/
def metaSet (m : Meta) (k : String) (v : MetaVal) : Meta :=
  if m.any (fun kv => kv.1 = k) then
    m.map fun kv => if kv.1 = k then (k, v) else kv
  else m ++ [(k, v)]

/-- Python `d.update(d2)`. -/
def metaUpdate (m m' : Meta) : Meta := m'.foldl (fun acc kv => metaSet acc kv.1 kv.2) m

def metaGet (m : Meta) (k : String) : Option MetaVal :=
  (m.find? (fun kv => kv.1 = k)).map Prod.snd

/-- `OCRDocumentHints`. -/
structure OCRDocumentHints where
  day_first_prob : Option ℚ := none
  numbering_style : Option String := none
  currency_glyphs : List String := []
  deriving Repr, DecidableEq

/-- `CandidateEvidence`. -/
structure CandidateEvidence where
  page : Option Nat := none
  bbox : List ℚ := []
  bbox_rel : List ℚ := []
  anchor_id : Option String := none
  anchor_label : Option String := none
  token_ids : List String := []
  deriving Repr, DecidableEq

/-- `FieldCandidate`. -/
structure FieldCandidate where
  value_raw : Option String
  evidence : CandidateEvidence
  deriving Repr, DecidableEq

/-- `candidates: Dict[str, List[FieldCandidate]]`, insertion ordered. -/
abbrev Candidates := List (String × List FieldCandidate)

/-- Python `candidates.get(field)` (`none` when the key is absent). -/
def candGet (c : Candidates) (k : String) : Option (List FieldCandidate) :=
  (c.find? (fun kv => kv.1 = k)).map Prod.snd

/-- Python `candidates.get(field, [])`. -/
def candGetD (c : Candidates) (k : String) : List FieldCandidate :=
  (candGet c k).getD []

/-- `NormalizedFieldValue`. -/
structure NormalizedFieldValue where
  raw : Option String
  normalized : Option String
  value_type : String
  parser : String
  confidence : Option ℚ
  metadata : Meta
  deriving Repr, DecidableEq

/-- `TotalsBreakdown`. -/
structure TotalsBreakdown where
  subtotal : Option NormalizedFieldValue
  tax_total : Option NormalizedFieldValue
  grand_total : Option NormalizedFieldValue
  recomputed_total : Option NormalizedFieldValue
  difference : Option ℚ
  status : String
  notes : Option String
  deriving Repr, DecidableEq

/-- `NormalizationSummary` (`fields` is an insertion-ordered dict). -/
structure NormalizationSummary where
  fields : List (String × NormalizedFieldValue)
  currency : Option NormalizedFieldValue
  totals : Option TotalsBreakdown
  deriving Repr, DecidableEq

/-- `OCRTableCell`. -/
structure OCRTableCell where
  cell_id : String
  row : Nat
  column : Nat
  text : String
  bbox : List ℚ
  bbox_rel : List ℚ
  row_span : Nat := 1
  column_span : Nat := 1
  is_header : Bool := false
  token_ids : List String := []
  hints : Meta := []
  deriving Repr, DecidableEq

/-- `OCRTable`. -/
structure OCRTable where
  table_id : String
  page : Nat
  bbox : List ℚ
  bbox_rel : List ℚ
  header_rows : List Nat := []
  column_headers : List String := []
  n_rows : Nat := 0
  n_cols : Nat := 0
  cells : List OCRTableCell := []
  deriving Repr, DecidableEq

/-- Python truthiness of an `Optional[str]` (`None` and `""` are falsy). -/
def optStrTruthy : Option String → Bool
  | none => false
  | some s => s ≠ ""

/-! ### `app/utils/normalization.py` -/

def DATE_FORMATS_DAY_FIRST : List String :=
  ["%d/%m/%Y", "%d-%m-%Y", "%d.%m.%Y", "%d %b %Y", "%d %B %Y", "%d/%m/%y", "%d-%m-%y"]

def DATE_FORMATS_MONTH_FIRST : List String :=
  ["%m/%d/%Y", "%m-%d-%Y", "%m/%d/%y", "%m-%d-%y"]

def DATE_FORMATS_NEUTRAL : List String :=
  ["%Y-%m-%d", "%Y/%m/%d", "%Y.%m.%d"]

/-- `CURRENCY_GLYPH_MAP`, in dict insertion order. -/
def CURRENCY_GLYPH_MAP : List (Char × String) :=
  [('₹', "INR"), ('$', "USD"), ('€', "EUR"), ('£', "GBP")]

/-- `CURRENCY_WORD_MAP`, in dict insertion order. -/
def CURRENCY_WORD_MAP : List (String × String) :=
  [("inr", "INR"), ("rs", "INR"), ("rs.", "INR"), ("usd", "USD"),
   ("eur", "EUR"), ("gbp", "GBP"), ("aud", "AUD"), ("cad", "CAD")]

def currencyWordLookup (k : String) : Option String :=
  (CURRENCY_WORD_MAP.find? (fun kv => kv.1 = k)).map Prod.snd

/-- `_select_candidate`: first element of a non-empty candidate list. -/
def _select_candidate : Option (List FieldCandidate) → Option FieldCandidate
  | none => none
  | some [] => none
  | some (c :: _) => some c

/-- `_candidate_metadata`. -/
def _candidate_metadata (candidate : FieldCandidate) : Meta :=
  let md : Meta := []
  let md := if optStrTruthy candidate.evidence.anchor_label then
      metaSet md "anchor" (.s (candidate.evidence.anchor_label.getD "")) else md
  let md := match candidate.evidence.page with
    | some p => if p ≠ 0 then metaSet md "page" (.n p) else md
    | none => md
  if optStrTruthy candidate.evidence.anchor_id then
    metaSet md "anchor_id" (.s (candidate.evidence.anchor_id.getD "")) else md

/-- Python `str.rfind`: highest index of the character, `-1` when absent. -/
def pyRfind (l : List Char) (c : Char) : Int :=
  match l.reverse.findIdx? (fun x => x = c) with
  | some i => (l.length : Int) - 1 - (i : Int)
  | none => -1

/-- `hints and hints.numbering_style == "indian"` (a hints model object is
always truthy in Python). -/
def hintsIndian (hints : Option OCRDocumentHints) : Bool :=
  match hints with
  | some h => h.numbering_style = some "indian"
  | none => false

/-- The separator-resolution block of `_parse_number`: the transformed
numeric string and the updated metadata.  When comma and dot both occur, the
one occurring last (`rfind`) is the decimal separator and the other is
removed; with only commas, the Indian numbering hint removes them as
grouping separators, otherwise every comma becomes a dot. -/
def numSeparatorResolve (cleaned : List Char) (hints : Option OCRDocumentHints)
    (md : Meta) : List Char × Meta :=
  if 0 < cleaned.count ',' ∧ 0 < cleaned.count '.' then
    if pyRfind cleaned ',' > pyRfind cleaned '.' then
      ((cleaned.filter (fun c => c ≠ '.')).map
         (fun c => if c = ',' then '.' else c),
       metaSet md "decimal_separator" (.s ","))
    else
      (cleaned.filter (fun c => c ≠ ','),
       metaSet md "decimal_separator" (.s "."))
  else if 0 < cleaned.count ',' ∧ cleaned.count '.' = 0 then
    if hintsIndian hints then
      (cleaned.filter (fun c => c ≠ ','),
       metaSet md "grouping_style" (.s "indian"))
    else
      (cleaned.map (fun c => if c = ',' then '.' else c),
       metaSet md "decimal_separator" (.s ","))
  else
    let c' := cleaned.filter (fun c => c ≠ ',')
    if c'.contains '.' then (c', metaSet md "decimal_separator" (.s "."))
    else (c', md)

/-- `_parse_number`: strip, keep only digits/comma/dot/minus, resolve the
separators, then attempt `Decimal(...)`. -/
def _parse_number (raw : Option String) (hints : Option OCRDocumentHints) :
    Option PyDecimal × Meta :=
  match raw with
  | none => (none, [])
  | some raw =>
    let text := pyStrip raw
    if text = "" then (none, [])
    else
      let md : Meta := metaSet [] "raw" (.s text)
      let cleaned := text.data.filter fun c =>
        isDigitChar c || c = ',' || c = '.' || c = '-'
      let p := numSeparatorResolve cleaned hints md
      match parsePyDecimal p.1 with
      | some value => (some value, metaSet p.2 "normalized" (.s ⟨p.1⟩))
      | none => (none, p.2)

/-! ### `datetime.strptime` model

Only the behaviour reachable through the fourteen format strings above is
modelled: the directives `%d %m %y %Y %b %B`, literal separator characters,
the full-match requirement, and the calendar validation that `datetime`
performs (month range, day-of-month range with leap years, `MINYEAR`).
Python compiles the format to a regular expression with `re.IGNORECASE`;
month names are therefore matched case-insensitively. -/

/-- Partial results accumulated by `strptime` group matching. -/
structure StrpAcc where
  d : Option Nat := none
  mo : Option Nat := none
  yr : Option Nat := none
  y2 : Option Nat := none
  deriving Repr, DecidableEq

def monthAbbrs : List String :=
  ["jan", "feb", "mar", "apr", "may", "jun", "jul", "aug", "sep", "oct", "nov", "dec"]

def monthFulls : List String :=
  ["january", "february", "march", "april", "may", "june", "july", "august",
   "september", "october", "november", "december"]

/-- Case-insensitive prefix test. -/
def isCIPrefix : List Char → List Char → Bool
  | [], _ => true
  | _ :: _, [] => false
  | p :: ps, c :: cs => lowerChar p = lowerChar c && isCIPrefix ps cs

/-- Match one month name out of `names` (a prefix-free set) at the head of
the input; returns the 1-based month and the rest of the input. -/
def matchMonthName (names : List String) (input : List Char) : Option (Nat × List Char) :=
  (names.enumFrom 1).findSome? fun ni =>
    if isCIPrefix ni.2.data input then some (ni.1, input.drop ni.2.length) else none

/-- One digit-group directive: the maximal digit run at the head must have
between 1 and `maxLen` characters (a longer run can never lead to an overall
match because every following format character is a non-digit, and a shorter
take would leave a digit where the separator is expected). -/
def takeDigitGroup (maxLen : Nat) (input : List Char) : Option (Nat × List Char) :=
  let run := input.takeWhile isDigitChar
  if run.length = 0 || maxLen < run.length then none
  else some (digitsToNat run, input.dropWhile isDigitChar)

/-- The `strptime` matching loop over the format string. -/
def strpLoop : List Char → List Char → StrpAcc → Option StrpAcc
  | [], input, st => if input.isEmpty then some st else none
  | '%' :: 'd' :: fmt, input, st =>
    match takeDigitGroup 2 input with
    | some (v, rest) => strpLoop fmt rest { st with d := some v }
    | none => none
  | '%' :: 'm' :: fmt, input, st =>
    match takeDigitGroup 2 input with
    | some (v, rest) => strpLoop fmt rest { st with mo := some v }
    | none => none
  | '%' :: 'y' :: fmt, input, st =>
    match takeDigitGroup 2 input with
    | some (v, rest) => strpLoop fmt rest { st with y2 := some v }
    | none => none
  | '%' :: 'Y' :: fmt, input, st =>
    match takeDigitGroup 4 input with
    | some (v, rest) => strpLoop fmt rest { st with yr := some v }
    | none => none
  | '%' :: 'b' :: fmt, input, st =>
    match matchMonthName monthAbbrs input with
    | some (v, rest) => strpLoop fmt rest { st with mo := some v }
    | none => none
  | '%' :: 'B' :: fmt, input, st =>
    match matchMonthName monthFulls input with
    | some (v, rest) => strpLoop fmt rest { st with mo := some v }
    | none => none
  | '%' :: _ :: _, _, _ => none
  | ['%'], _, _ => none
  | c :: fmt, input, st =>
    match input with
    | [] => none
    | i :: is => if i = c then strpLoop fmt is st else none

def isLeapYear (y : Nat) : Bool :=
  y % 4 = 0 && (y % 100 ≠ 0 || y % 400 = 0)

def daysInMonth (y m : Nat) : Nat :=
  if m = 2 then (if isLeapYear y then 29 else 28)
  else if m = 4 || m = 6 || m = 9 || m = 11 then 30
  else 31

/-- `datetime.strptime(input, fmt)` restricted as described above, returning
`(year, month, day)`.  The two-digit year pivot is Python's (`00–68` →
2000s, `69–99` → 1900s). -/
def pyStrptime (input fmt : String) : Option (Nat × Nat × Nat) :=
  match strpLoop fmt.data input.data {} with
  | none => none
  | some st =>
    let year := match st.yr, st.y2 with
      | some yv, _ => yv
      | none, some y => if y ≤ 68 then 2000 + y else 1900 + y
      | none, none => 1900
    let month := st.mo.getD 1
    let day := st.d.getD 1
    if 1 ≤ year && year ≤ 9999 && 1 ≤ month && month ≤ 12 &&
        1 ≤ day && day ≤ daysInMonth year month then
      some (year, month, day)
    else none

/-- Decimal digits padded with leading zeros to the given width. -/
def padNat (width n : Nat) : List Char :=
  let ds := natDigits n
  List.replicate (width - ds.length) '0' ++ ds

/-- `parsed.strftime("%Y-%m-%d")`. -/
def isoOfYmd : Nat × Nat × Nat → String
  | (y, m, d) => ⟨padNat 4 y ++ '-' :: padNat 2 m ++ '-' :: padNat 2 d⟩

/-- `text.replace("  ", " ")`: replace non-overlapping double spaces, left to
right, in a single pass. -/
def replaceDoubleSpace : List Char → List Char
  | [] => []
  | [c] => [c]
  | c1 :: c2 :: rest =>
    if c1 = ' ' && c2 = ' ' then ' ' :: replaceDoubleSpace rest
    else c1 :: replaceDoubleSpace (c2 :: rest)

/-- First format in the list that `strptime`-parses `cleaned`; `mapFmt` is
applied to the format before parsing (identity in the first pass, separator
coercion in the relaxed pass) while the reported format stays the original. -/
def firstStrptime (cleaned : String) (mapFmt : String → String) :
    List String → Option (String × (Nat × Nat × Nat))
  | [] => none
  | f :: rest =>
    match pyStrptime cleaned (mapFmt f) with
    | some ymd => some (f, ymd)
    | none => firstStrptime cleaned mapFmt rest

/-- `date_format.replace("-", "/").replace(".", "/")`. -/
def fmtSepToSlash (f : String) : String :=
  ⟨f.data.map fun c => if c = '-' || c = '.' then '/' else c⟩

/-- The format trial order of `_parse_date`: month-first families first when
a day-first probability below 0.5 is known, otherwise day-first families
first, followed by the ISO-like neutral formats. -/
def dateFormatCandidates (pref : Option ℚ) : List String :=
  (match pref with
   | some p => if p < mkRat 1 2 then DATE_FORMATS_MONTH_FIRST ++ DATE_FORMATS_DAY_FIRST
       else DATE_FORMATS_DAY_FIRST ++ DATE_FORMATS_MONTH_FIRST
   | none => DATE_FORMATS_DAY_FIRST ++ DATE_FORMATS_MONTH_FIRST) ++ DATE_FORMATS_NEUTRAL

/-- `_parse_date`.  The relaxed pass iterates Python's
`set(format_candidates)` whose order is unspecified; it is modelled in list
order.  Which format wins can depend on that order, but success or failure of
the pass — and hence the returned confidence — cannot, since every format of
the set is tried. -/
def _parse_date (raw : Option String) (hints : Option OCRDocumentHints) :
    Option String × Option ℚ × Meta :=
  match raw with
  | none => (none, none, [])
  | some raw0 =>
    let cleaned0 := pyStrip raw0
    if cleaned0 = "" then (none, none, [])
    else
      let cleaned : String :=
        pyStrip ⟨replaceDoubleSpace (cleaned0.data.map fun c => if c = ',' then ' ' else c)⟩
      let pref := match hints with | some h => h.day_first_prob | none => none
      let md : Meta := match pref with
        | some p => metaSet [] "day_first_prob" (.q p)
        | none => []
      let fmts := dateFormatCandidates pref
      match firstStrptime cleaned id fmts with
      | some (fmt, ymd) =>
        let conf : ℚ := match pref with | some p => max p (1 - p) | none => mkRat 9 10
        (some (isoOfYmd ymd), some conf, metaSet md "format" (.s fmt))
      | none =>
        let normalised : String :=
          ⟨cleaned.data.map fun c => if c = '.' || c = '-' then '/' else c⟩
        if normalised ≠ cleaned then
          match firstStrptime normalised fmtSepToSlash fmts with
          | some (fmt, ymd) =>
            (some (isoOfYmd ymd), some (mkRat 4 5), metaSet md "format" (.s fmt))
          | none => (none, some (mkRat 2 5), md)
        else (none, some (mkRat 2 5), md)

/-- `_detect_currency`. -/
def _detect_currency (raw : Option String) (hints : Option OCRDocumentHints)
    (candidate : Option FieldCandidate) : Option String × Meta :=
  let md : Meta := []
  -- `if raw: raw = raw.strip()` followed by `if raw:` collapses to a single
  -- check on the stripped value (stripping never turns falsy into truthy).
  let rawStripped := match raw with
    | some s => if s ≠ "" then some (pyStrip s) else some s
    | none => none
  let fromRaw : Option (String × Meta) :=
    match rawStripped with
    | some s =>
      if s ≠ "" then
        match CURRENCY_GLYPH_MAP.find? (fun gc => s.data.contains gc.1) with
        | some gc =>
          some (gc.2, metaSet (metaSet md "glyph" (.s ⟨[gc.1]⟩)) "source" (.s "candidate"))
        | none =>
          match currencyWordLookup (lowerStr s) with
          | some code => some (code, metaSet md "source" (.s "candidate"))
          | none => none
      else none
    | none => none
  match fromRaw with
  | some (code, md') => (some code, md')
  | none =>
    let fromCandidate : Option (String × Meta) :=
      match candidate with
      | some c =>
        match c.value_raw with
        | some vr =>
          if vr ≠ "" then
            match currencyWordLookup (lowerStr vr) with
            | some code => some (code, metaSet md "source" (.s "candidate"))
            | none => none
          else none
        | none => none
      | none => none
    match fromCandidate with
    | some (code, md') => (some code, md')
    | none =>
      let fromHints : Option (String × Meta) :=
        match hints with
        | some h =>
          if h.currency_glyphs ≠ [] then
            h.currency_glyphs.findSome? fun glyph =>
              match CURRENCY_GLYPH_MAP.find? (fun gc => (⟨[gc.1]⟩ : String) = glyph) with
              | some gc =>
                some (gc.2,
                  metaSet (metaSet md "glyph" (.s glyph)) "source" (.s "document_hint"))
              | none => none
          else none
        | none => none
      match fromHints with
      | some (code, md') => (some code, md')
      | none => (none, md)

/-- The body of `_normalise_currency` once the candidate has been
selected. -/
def currencyFromCandidate (candidate : Option FieldCandidate)
    (hints : Option OCRDocumentHints) : Option NormalizedFieldValue :=
  let raw_value : Option String := match candidate with
    | some c => c.value_raw
    | none => none
  let dc := _detect_currency raw_value hints candidate
  if dc.1 = none ∧ !optStrTruthy raw_value then none
  else
    let confidence : ℚ := if dc.1.isSome then mkRat 9 10 else mkRat 1 2
    let metadata := match candidate with
      | some c => metaUpdate dc.2 (_candidate_metadata c)
      | none => dc.2
    some {
      raw := raw_value
      normalized := dc.1
      value_type := if dc.1.isSome then "currency" else "string"
      parser := "deterministic.currency"
      confidence := some confidence
      metadata := metadata }

/-- `_normalise_currency`. -/
def _normalise_currency (candidates : Candidates) (hints : Option OCRDocumentHints) :
    Option NormalizedFieldValue :=
  currencyFromCandidate
    (_select_candidate (if candidates ≠ [] then candGet candidates "currency" else none))
    hints

/-- `_normalise_identity_fields`. -/
def _normalise_identity_fields (candidates : Candidates) :
    List (String × NormalizedFieldValue) :=
  if candidates = [] then []
  else
    ["po_number", "order_reference", "invoice_number", "vendor_name"].filterMap
      fun field =>
        match _select_candidate (candGet candidates field) with
        | none => none
        | some candidate =>
          some (field, {
            raw := candidate.value_raw
            normalized := match candidate.value_raw with
              | some v => if v ≠ "" then some (pyStrip v) else none
              | none => none
            value_type := "string"
            parser := "identity"
            confidence := some 1
            metadata := _candidate_metadata candidate })

/-- `_normalise_date_fields`. -/
def _normalise_date_fields (candidates : Candidates) (hints : Option OCRDocumentHints) :
    List (String × NormalizedFieldValue) :=
  if candidates = [] then []
  else
    ["po_date", "invoice_date"].filterMap fun field =>
      match _select_candidate (candGet candidates field) with
      | none => none
      | some candidate =>
        let (parsed, confidence, metadata) := _parse_date candidate.value_raw hints
        let metadata := metaUpdate metadata (_candidate_metadata candidate)
        some (field, {
          raw := candidate.value_raw
          normalized := parsed
          value_type := if parsed.isSome then "date" else "string"
          parser := "deterministic.date"
          confidence := confidence
          metadata := metadata })

/-- `_normalise_numeric_fields`: the normalized field map together with the
parsed subtotal/tax/grand decimal values. -/
def _normalise_numeric_fields (candidates : Candidates) (hints : Option OCRDocumentHints) :
    List (String × NormalizedFieldValue) × Option PyDecimal × Option PyDecimal ×
      Option PyDecimal :=
  if candidates = [] then ([], none, none, none)
  else
    let step := fun field =>
      match _select_candidate (candGet candidates field) with
      | none => none
      | some candidate =>
        let metadata := _candidate_metadata candidate
        let (value, number_metadata) := _parse_number candidate.value_raw hints
        let metadata := metaUpdate metadata number_metadata
        let normalized_text := decimalToStr value
        let confidence : ℚ := if value.isSome then 1 else mkRat 3 5
        some (({
          raw := candidate.value_raw
          normalized := normalized_text
          value_type := if value.isSome then "number" else "string"
          parser := "deterministic.number"
          confidence := some confidence
          metadata := metadata } : NormalizedFieldValue), value)
    let sub := step "subtotal"
    let tax := step "tax_total"
    let grand := step "grand_total"
    let results :=
      (match sub with | some r => [("subtotal", r.1)] | none => []) ++
      (match tax with | some r => [("tax_total", r.1)] | none => []) ++
      (match grand with | some r => [("grand_total", r.1)] | none => [])
    (results,
     (match sub with | some r => r.2 | none => none),
     (match tax with | some r => r.2 | none => none),
     (match grand with | some r => r.2 | none => none))

/-- `_field_from_results`. -/
def _field_from_results (field_name : String) (candidates : Candidates) :
    Option NormalizedFieldValue :=
  match _select_candidate (candGet candidates field_name) with
  | none => none
  | some candidate =>
    some {
      raw := candidate.value_raw
      normalized := match candidate.value_raw with
        | some v => if v ≠ "" then some (pyStrip v) else none
        | none => none
      value_type := "string"
      parser := "identity"
      confidence := some 1
      metadata := _candidate_metadata candidate }

/-- `_preferred_table_ids_from_candidates`: for each subtotal/tax/grand
candidate whose evidence carries an anchor id containing `"-"`, the prefix of
that anchor id before its first dash (`anchor_id.split("-")[0]`). -/
def _preferred_table_ids_from_candidates (candidates : Candidates) : List String :=
  if candidates = [] then []
  else
    (["subtotal", "tax_total", "grand_total"].map fun field =>
      (candGetD candidates field).filterMap fun candidate =>
        match candidate.evidence.anchor_id with
        | some aid =>
          if aid ≠ "" && aid.data.contains '-' then
            some (⟨aid.data.takeWhile (fun c => c ≠ '-')⟩ : String)
          else none
        | none => none).flatten

/-- The per-table rightmost-column amounts collected by
`_recompute_totals_from_tables` for one table. -/
def tableAmountValues (table : OCRTable) (hints : Option OCRDocumentHints) :
    List PyDecimal :=
  table.cells.filterMap fun cell =>
    if cell.is_header || table.n_cols = 0 then none
    else if cell.column = table.n_cols - 1 then
      (_parse_number (some cell.text) hints).1
    else none

/-- The per-table result of the `_recompute_totals_from_tables` loop body
(after the preferred-ids filter): the sum of the parseable rightmost-column
amounts with its metadata, when any amount parsed. -/
def tableHit (hints : Option OCRDocumentHints) (table : OCRTable) :
    Option (PyDecimal × Meta) :=
  let amounts := tableAmountValues table hints
  if amounts ≠ [] then
    some (amounts.foldl PyDecimal.add ⟨0, 0⟩,
      ([("source", MetaVal.s "table_sum"), ("table_id", .s table.table_id),
        ("row_count", .n amounts.length)] : Meta))
  else none

/-- `_recompute_totals_from_tables`. -/
def _recompute_totals_from_tables (tables : Option (List OCRTable))
    (hints : Option OCRDocumentHints) (candidates : Candidates) :
    Option PyDecimal × Meta :=
  match tables with
  | none => (none, [])
  | some tables =>
    if tables = [] then (none, [])
    else
      let preferred := _preferred_table_ids_from_candidates candidates
      let hit := tables.findSome? fun table =>
        if preferred ≠ [] ∧ !(preferred.contains table.table_id) then none
        else tableHit hints table
      match hit with
      | some (v, md) => (some v, md)
      | none => (none, [])

/-- The recomputed-total fallback of `_build_totals_breakdown`: the table
recomputation when it produced a value, else `subtotal + tax` when both
parsed. -/
def totalsFallback (v0 subtotal tax : Option PyDecimal) : Option PyDecimal :=
  match v0 with
  | some v => some v
  | none =>
    match subtotal, tax with
    | some s, some t => some (PyDecimal.add s t)
    | _, _ => none

/-- The status assignments of `_build_totals_breakdown` as a function of the
grand total, the recomputed value and the parsed partial totals. -/
def totalsStatus (grand recomputed subtotal tax : Option PyDecimal) : String :=
  match grand with
  | some g =>
    (match recomputed with
     | some r =>
       if PyDecimal.le (PyDecimal.abs (PyDecimal.sub g r)) ⟨1, 2⟩ then "ok"
       else "mismatch"
     | none => "insufficient")
  | none =>
    if subtotal.isSome || tax.isSome || recomputed.isSome then "insufficient"
    else "missing"

/-- `difference` of the breakdown: set only when the grand total and the
recomputed value both exist. -/
def totalsDifference (grand recomputed : Option PyDecimal) : Option ℚ :=
  match grand, recomputed with
  | some g, some r => some (PyDecimal.abs (PyDecimal.sub g r)).toRat
  | _, _ => none

/-- `notes` of the breakdown. -/
def totalsNotes (grand recomputed : Option PyDecimal) : Option String :=
  match grand, recomputed with
  | some g, some r =>
    some (if PyDecimal.le (PyDecimal.abs (PyDecimal.sub g r)) ⟨1, 2⟩ then
        "Grand total matches recomputed total."
      else "Grand total differs from recomputed total.")
  | _, _ => none

/-- The `TotalsBreakdown` record assembled by `_build_totals_breakdown`
(before its final all-fields-empty check). -/
def buildTotalsRecord (candidates : Candidates) (hints : Option OCRDocumentHints)
    (tables : Option (List OCRTable)) (subtotal tax grand : Option PyDecimal) :
    TotalsBreakdown :=
  let subtotal_field := if candidates ≠ [] then _field_from_results "subtotal" candidates else none
  let tax_field := if candidates ≠ [] then _field_from_results "tax_total" candidates else none
  let grand_field := if candidates ≠ [] then _field_from_results "grand_total" candidates else none
  let rv0 := _recompute_totals_from_tables tables hints candidates
  let recomputed_value := totalsFallback rv0.1 subtotal tax
  let recompute_source : Option String :=
    match rv0.1 with
    | some _ => some "table_sum"
    | none =>
      match subtotal, tax with
      | some _, some _ => some "subtotal_plus_tax"
      | _, _ => none
  let recomputed_metadata : Meta :=
    match rv0.1 with
    | some _ => rv0.2
    | none =>
      match subtotal, tax with
      | some _, some _ => [("source", MetaVal.s "subtotal_plus_tax")]
      | _, _ => rv0.2
  let recomputed_field : Option NormalizedFieldValue :=
    match recomputed_value with
    | some v => some {
        raw := none
        normalized := decimalToStr (some v)
        value_type := "number"
        parser := "deterministic.total"
        confidence := some (mkRat 9 10)
        metadata := if recomputed_metadata ≠ [] then recomputed_metadata
          else [("source", match recompute_source with
            | some s => MetaVal.s s
            | none => MetaVal.nullv)] }
    | none => none
  { subtotal := subtotal_field
    tax_total := tax_field
    grand_total := grand_field
    recomputed_total := recomputed_field
    difference := totalsDifference grand recomputed_value
    status := totalsStatus grand recomputed_value subtotal tax
    notes := totalsNotes grand recomputed_value }

/-- `_build_totals_breakdown`. -/
def _build_totals_breakdown (candidates : Candidates) (hints : Option OCRDocumentHints)
    (tables : Option (List OCRTable)) (subtotal tax grand : Option PyDecimal) :
    Option TotalsBreakdown :=
  if candidates = [] ∧ (tables = none ∨ tables = some []) then none
  else
    if (buildTotalsRecord candidates hints tables subtotal tax grand).subtotal = none ∧
        (buildTotalsRecord candidates hints tables subtotal tax grand).tax_total = none ∧
        (buildTotalsRecord candidates hints tables subtotal tax grand).grand_total = none ∧
        (buildTotalsRecord candidates hints tables subtotal tax grand).recomputed_total = none
      then none
    else some (buildTotalsRecord candidates hints tables subtotal tax grand)

/-- `normalize_document`. -/
def normalize_document (candidates : Candidates) (hints : Option OCRDocumentHints)
    (tables : Option (List OCRTable)) : Option NormalizationSummary :=
  if candidates = [] && (tables = none || tables = some []) then none
  else
    let fields := _normalise_identity_fields candidates ++
      _normalise_date_fields candidates hints
    let (numeric_fields, subtotal_value, tax_value, grand_value) :=
      _normalise_numeric_fields candidates hints
    let fields := fields ++ numeric_fields
    let currency_value := _normalise_currency candidates hints
    let totals := _build_totals_breakdown candidates hints tables
      subtotal_value tax_value grand_value
    if fields = [] && currency_value = none && totals = none then none
    else some { fields := fields, currency := currency_value, totals := totals }

/-! ### `app/services/ocr_service.py`: token/block/page normalisation -/

/-- `OCRToken` (schemas.py). -/
structure OCRToken where
  id : String
  text : String
  confidence : Option ℚ := none
  bbox : List ℚ := []
  bbox_rel : List ℚ := []
  page : Nat
  reading_order : Nat
  token_type : String
  engine : String := "surya"
  block_id : Option String := none
  order_in_block : Option Nat := none
  hints : Option Meta := none
  deriving Repr, DecidableEq

/-- `OCRBlock` (schemas.py). -/
structure OCRBlock where
  block_id : String
  block_type : Option String := some "line"
  text : String
  confidence : Option ℚ := none
  bbox : Option (List ℚ) := none
  bbox_rel : Option (List ℚ) := none
  page : Option Nat := none
  reading_order : Option Nat := none
  tokens : Option (List OCRToken) := none
  deriving Repr, DecidableEq

/-- `OCRPage` (schemas.py; the `tables` attribute, appended to by the table
detector but read by no claim, is omitted). -/
structure OCRPage where
  page_number : Nat
  text : String
  width : Option Int := none
  height : Option Int := none
  blocks : Option (List OCRBlock) := none
  tokens : Option (List OCRToken) := none
  deriving Repr, DecidableEq

/-- One raw OCR line as delivered by the engine collaborator: text,
confidence and absolute bounding box of a `TextLine`. -/
structure InLine where
  text : Option String := none
  confidence : Option ℚ := none
  bbox : Option (List ℚ) := none
  deriving Repr, DecidableEq

/-- One raw input page: pixel size plus its ordered OCR lines (the zip of
`surya_results` with `page_sizes`). -/
structure InPage where
  width : Int
  height : Int
  lines : List InLine
  deriving Repr, DecidableEq

/-- `_extract_bbox`: a missing or empty box becomes `[0, 0, 0, 0]`. -/
def _extract_bbox (bbox : Option (List ℚ)) : List ℚ :=
  match bbox with
  | none => [0, 0, 0, 0]
  | some [] => [0, 0, 0, 0]
  | some l => l

/-- `_to_relative_bbox`: clamp each coordinate ratio into `[0, 1]`, all-zero
when a page dimension is zero.  (Callers always pass four coordinates; other
shapes would raise in Python and are mapped to zeros here.) -/
def _to_relative_bbox (bbox : List ℚ) (width height : Int) : List ℚ :=
  if width = 0 || height = 0 then [0, 0, 0, 0]
  else
    match bbox with
    | [x1, y1, x2, y2] =>
      [max 0 (min 1 (x1 / width)), max 0 (min 1 (y1 / height)),
       max 0 (min 1 (x2 / width)), max 0 (min 1 (y2 / height))]
    | _ => [0, 0, 0, 0]

/-- `_split_words`: `re.findall(r"\S+", text)`. -/
def _split_words (text : String) : List String :=
  if text = "" then []
  else (splitNonSpaceRuns text.data).map fun run => (⟨run⟩ : String)

/-- Word tokens of one line, threading the document-wide reading-order
counter (incremented before each token is created). -/
def mkWordTokens (blockId : String) (pageIndex : Nat) (conf : Option ℚ)
    (bbox bboxRel : List ℚ) : List String → Nat → Nat → List OCRToken
  | [], _, _ => []
  | w :: ws, wordIndex, ro =>
    { id := s!"{blockId}-w{wordIndex}"
      text := w
      confidence := conf
      bbox := bbox
      bbox_rel := bboxRel
      page := pageIndex
      reading_order := ro + 1
      token_type := "word"
      engine := "surya"
      block_id := some blockId
      order_in_block := some wordIndex } ::
    mkWordTokens blockId pageIndex conf bbox bboxRel ws (wordIndex + 1) (ro + 1)

/-- One line of `_normalise_pages`: the block, its tokens (line token first),
the stripped line text, and the updated reading-order counter. -/
def processLine (pageIndex lineIndex : Nat) (width height : Int) (ro : Nat)
    (line : InLine) : OCRBlock × List OCRToken × String × Nat :=
  let line_text := pyStrip (line.text.getD "")
  let bbox_abs := _extract_bbox line.bbox
  let bbox_rel := _to_relative_bbox bbox_abs width height
  let block_id := s!"p{pageIndex}-l{lineIndex}"
  let line_token : OCRToken := {
    id := s!"{block_id}-line"
    text := line_text
    confidence := line.confidence
    bbox := bbox_abs
    bbox_rel := bbox_rel
    page := pageIndex
    reading_order := ro + 1
    token_type := "line"
    engine := "surya"
    block_id := some block_id }
  let words := _split_words line_text
  let word_tokens := mkWordTokens block_id pageIndex line.confidence bbox_abs bbox_rel
    words 0 (ro + 1)
  let block_tokens := line_token :: word_tokens
  let block : OCRBlock := {
    block_id := block_id
    block_type := some "line"
    text := line_text
    confidence := line.confidence
    bbox := some bbox_abs
    bbox_rel := some bbox_rel
    page := some pageIndex
    reading_order := some line_token.reading_order
    tokens := some block_tokens }
  (block, block_tokens, line_text, ro + 1 + words.length)

/-- All lines of one page: blocks, page tokens, stripped line texts and the
updated counter. -/
def processLines (pageIndex : Nat) (width height : Int) :
    List InLine → Nat → Nat → List OCRBlock × List OCRToken × List String × Nat
  | [], _, ro => ([], [], [], ro)
  | line :: rest, lineIndex, ro =>
    let (block, btokens, text, ro') := processLine pageIndex lineIndex width height ro line
    let (blocks, tokens, texts, ro'') := processLines pageIndex width height rest (lineIndex + 1) ro'
    (block :: blocks, btokens ++ tokens, text :: texts, ro'')

/-- All pages: built pages, the document token list and the final counter. -/
def processPages : List InPage → Nat → Nat → List OCRPage × List OCRToken × Nat
  | [], _, ro => ([], [], ro)
  | p :: rest, pageIndex, ro =>
    let (blocks, ptokens, texts, ro') := processLines pageIndex p.width p.height p.lines 0 ro
    let page : OCRPage := {
      page_number := pageIndex
      text := String.intercalate "\n" (texts.filter fun t => t ≠ "")
      width := some p.width
      height := some p.height
      blocks := if blocks = [] then none else some blocks
      tokens := if ptokens = [] then none else some ptokens }
    let (pages, tokens, ro'') := processPages rest (pageIndex + 1) ro'
    (page :: pages, ptokens ++ tokens, ro'')

/-- `_normalise_pages` (the `block_map`, unused by the downstream stages the
claims touch, is not materialised): pages and the document-wide token list,
with `reading_order` starting at 0 and incremented before each token. -/
def _normalise_pages (doc : List InPage) : List OCRPage × List OCRToken :=
  let (pages, tokens, _) := processPages doc 1 0
  (if pages = [] then
      [{ page_number := 1, text := "", width := none, height := none,
         blocks := none, tokens := none }]
    else pages,
   tokens)

/-! ### `_apply_token_hints` and its token patterns -/

def isCurrencyGlyph (c : Char) : Bool :=
  c = '₹' || c = '$' || c = '€' || c = '£'

/-- `^(?P<symbol>[₹$€£])\s*\d` via `.match`: a currency glyph, optional
whitespace, then a digit; returns the glyph. -/
def moneySymbolMatch (text : List Char) : Option Char :=
  match text with
  | [] => none
  | c :: rest =>
    if isCurrencyGlyph c then
      match rest.dropWhile isPySpace with
      | d :: _ => if isDigitChar d then some c else none
      | [] => none
    else none

/-- `^(rs\.?|inr|usd|eur|gbp|aud|cad)$` with `IGNORECASE`. -/
def moneyWordMatch (text : List Char) : Bool :=
  let l : String := ⟨text.map lowerChar⟩
  l = "rs" || l = "rs." || l = "inr" || l = "usd" || l = "eur" ||
    l = "gbp" || l = "aud" || l = "cad"

/-- Split on `','` keeping empty groups. -/
def commaGroups (l : List Char) : List (List Char) :=
  l.foldr
    (fun c acc =>
      match acc with
      | [] => if c = ',' then [[], []] else [[c]]
      | g :: gs => if c = ',' then [] :: g :: gs else (c :: g) :: gs)
    [[]]

/-- Split at the first `'.'`: the part before it and, when a dot exists, the
part after it. -/
def splitAtFirstDot (l : List Char) : List Char × Option (List Char) :=
  let before := l.takeWhile fun c => c ≠ '.'
  match l.dropWhile (fun c => c ≠ '.') with
  | [] => (before, none)
  | _ :: after => (before, some after)

/-- `^\d{1,2}(,\d{2})+(?:\.\d+)?$`: a 1–2 digit leading group, one or more
comma-separated groups of exactly 2 digits, optional fraction. -/
def indianNumberMatch (text : List Char) : Bool :=
  let (before, fracOpt) := splitAtFirstDot text
  let fracOk := match fracOpt with
    | none => true
    | some frac => frac.length ≥ 1 && frac.all isDigitChar
  let groups := commaGroups before
  match groups with
  | [] => false
  | g0 :: rest =>
    fracOk && decide (1 ≤ g0.length) && decide (g0.length ≤ 2) && g0.all isDigitChar &&
      decide (1 ≤ rest.length) &&
      rest.all fun g => decide (g.length = 2) && g.all isDigitChar

/-- `^\d{1,3}(,\d{3})+(?:\.\d+)?$`. -/
def internationalNumberMatch (text : List Char) : Bool :=
  let (before, fracOpt) := splitAtFirstDot text
  let fracOk := match fracOpt with
    | none => true
    | some frac => frac.length ≥ 1 && frac.all isDigitChar
  let groups := commaGroups before
  match groups with
  | [] => false
  | g0 :: rest =>
    fracOk && decide (1 ≤ g0.length) && decide (g0.length ≤ 3) && g0.all isDigitChar &&
      decide (1 ≤ rest.length) &&
      rest.all fun g => decide (g.length = 3) && g.all isDigitChar

/-- `^[\d,]+(?:\.\d+)?$`. -/
def moneyNumericMatch (text : List Char) : Bool :=
  let (before, fracOpt) := splitAtFirstDot text
  let fracOk := match fracOpt with
    | none => true
    | some frac => frac.length ≥ 1 && frac.all isDigitChar
  before ≠ [] && before.all (fun c => isDigitChar c || c = ',') && fracOk

/-- `(?P<d>\d{1,2})[\/\-](?P<m>\d{1,2})[\/\-](?P<y>\d{2,4})$` via `.match`:
anchored at both ends; returns the two leading numeric groups (named `d` and
`m` in the source). -/
def dateSepMatch (text : List Char) : Option (Nat × Nat) :=
  let r1 := text.takeWhile isDigitChar
  match text.dropWhile isDigitChar with
  | s1 :: t1 =>
    if (s1 = '/' || s1 = '-') && decide (1 ≤ r1.length) && decide (r1.length ≤ 2) then
      let r2 := t1.takeWhile isDigitChar
      match t1.dropWhile isDigitChar with
      | s2 :: t2 =>
        if (s2 = '/' || s2 = '-') && decide (1 ≤ r2.length) && decide (r2.length ≤ 2) then
          let r3 := t2.takeWhile isDigitChar
          if t2.dropWhile isDigitChar = [] && decide (2 ≤ r3.length) &&
              decide (r3.length ≤ 4) then
            some (digitsToNat r1, digitsToNat r2)
          else none
        else none
      | [] => none
    else none
  | _ => none

/-- `^\d{4}[\/\-]\d{1,2}[\/\-]\d{1,2}$`. -/
def isoDateMatch (text : List Char) : Bool :=
  let r1 := text.takeWhile isDigitChar
  match text.dropWhile isDigitChar with
  | s1 :: t1 =>
    if (s1 = '/' || s1 = '-') && decide (r1.length = 4) then
      let r2 := t1.takeWhile isDigitChar
      match t1.dropWhile isDigitChar with
      | s2 :: t2 =>
        (s2 = '/' || s2 = '-') && decide (1 ≤ r2.length) && decide (r2.length ≤ 2) &&
          (let r3 := t2.takeWhile isDigitChar
           t2.dropWhile isDigitChar = [] && decide (1 ≤ r3.length) &&
             decide (r3.length ≤ 2))
      | [] => false
    else false
  | _ => false

/-- The document-wide statistics accumulated by `_apply_token_hints`
(`currency_glyphs` is a Python set, kept here deduplicated and sorted by
code point, matching the later `sorted(...)`). -/
structure TokenStats where
  currency_glyphs : List String := []
  day_first : Nat := 0
  month_first : Nat := 0
  ambiguous : Nat := 0
  indian : Nat := 0
  international : Nat := 0
  deriving Repr, DecidableEq

/-- Lexicographic (code point) order on strings, for `sorted(...)`. -/
def strLt : List Char → List Char → Bool
  | [], [] => false
  | [], _ :: _ => true
  | _ :: _, [] => false
  | a :: as', b :: bs' =>
    if a.toNat < b.toNat then true
    else if b.toNat < a.toNat then false
    else strLt as' bs'

/-- Insert into an ascending, duplicate-free list (set insertion whose
eventual `sorted(...)` image is maintained eagerly). -/
def sortedInsert (g : String) : List String → List String
  | [] => [g]
  | x :: xs =>
    if g = x then x :: xs
    else if strLt g.data x.data then g :: x :: xs
    else x :: sortedInsert g xs

/-- Stats contribution of one token. -/
structure StatsDelta where
  glyphs : List String := []
  day_first : Nat := 0
  month_first : Nat := 0
  ambiguous : Nat := 0
  indian : Nat := 0
  international : Nat := 0
  deriving Repr, DecidableEq

def applyDelta (st : TokenStats) (d : StatsDelta) : TokenStats :=
  { currency_glyphs := d.glyphs.foldl (fun acc g => sortedInsert g acc) st.currency_glyphs
    day_first := st.day_first + d.day_first
    month_first := st.month_first + d.month_first
    ambiguous := st.ambiguous + d.ambiguous
    indian := st.indian + d.indian
    international := st.international + d.international }

/-- The classification cascade of `_apply_token_hints` for one token text
(already known non-empty after stripping): the hints dict to assign, if any,
and the statistics contribution. -/
def classifyTokenText (text : String) : Option Meta × StatsDelta :=
  let l := text.data
  let symbolMatch := moneySymbolMatch l
  if symbolMatch.isSome || moneyWordMatch l then
    let md : Meta := [("maybe", .s "money"), ("pattern", .s text)]
    match symbolMatch with
    | some sym =>
      (some (md ++ [("glyph", .s ⟨[sym]⟩)]), { glyphs := [⟨[sym]⟩] })
    | none => (some md, {})
  else if l.any isCurrencyGlyph then
    let glyphs := (["₹", "$", "€", "£"] : List String).filter fun g =>
      match g.data with
      | [c] => l.contains c
      | _ => false
    let md : Meta := [("maybe", .s "money"), ("pattern", .s text)]
    match glyphs with
    | g :: _ => (some (md ++ [("glyph", .s g)]), { glyphs := glyphs })
    | [] => (some md, {})
  else
    match dateSepMatch l with
    | some (day, month) =>
      let md : Meta := [("maybe", .s "date"), ("pattern", .s text)]
      if day > 12 && month ≤ 12 then
        (some (md ++ [("day_first_conf", .q 1)]), { day_first := 1 })
      else if month > 12 && day ≤ 12 then
        (some (md ++ [("day_first_conf", .q 0)]), { month_first := 1 })
      else
        (some md, { ambiguous := 1 })
    | none =>
      if isoDateMatch l then
        (some [("maybe", .s "date"), ("pattern", .s text), ("format", .s "iso")], {})
      else if indianNumberMatch l then
        (some [("maybe", .s "number"), ("numbering_style", .s "indian"),
               ("pattern", .s text)],
         { indian := 1 })
      else if internationalNumberMatch l then
        (some [("maybe", .s "number"), ("numbering_style", .s "international"),
               ("pattern", .s text)],
         { international := 1 })
      else if moneyNumericMatch l && l.contains ',' then
        (some [("maybe", .s "number"), ("pattern", .s text)], {})
      else (none, {})

/-- Hints-dict assignment for one token (empty-after-strip tokens are left
untouched). -/
def hintToken (t : OCRToken) : OCRToken :=
  let text := pyStrip t.text
  if text = "" then t
  else
    match (classifyTokenText text).1 with
    | some md => { t with hints := some md }
    | none => t

/-- Stats contribution of one token. -/
def tokenDelta (t : OCRToken) : StatsDelta :=
  let text := pyStrip t.text
  if text = "" then {}
  else (classifyTokenText text).2

/-- `_apply_token_hints`: assigns each token its hints dict (modelling the
in-place mutation by a map) and accumulates the document statistics. -/
def _apply_token_hints (tokens : List OCRToken) : List OCRToken × TokenStats :=
  (tokens.map hintToken, tokens.foldl (fun st t => applyDelta st (tokenDelta t)) {})

/-- `_compute_document_hints`. -/
def _compute_document_hints (stats : TokenStats) : OCRDocumentHints :=
  let denominator := stats.day_first + stats.month_first + stats.ambiguous
  { day_first_prob :=
      if denominator ≠ 0 then
        some (((stats.day_first : ℚ) + (1 : ℚ)/2 * stats.ambiguous) / denominator)
      else none
    numbering_style :=
      if stats.indian ≠ 0 || stats.international ≠ 0 then
        some (if stats.indian ≥ stats.international then "indian" else "international")
      else none
    currency_glyphs := stats.currency_glyphs }

/-! ### Zones -/

/-- `OCRZone` (schemas.py). -/
structure OCRZone where
  zone_id : String
  zone_type : String
  page : Nat
  bbox : List ℚ
  bbox_rel : List ℚ
  deriving Repr, DecidableEq

/-- `int(q)` for the non-negative rationals produced by the zone-ratio
products (truncation towards zero coincides with the floor there). -/
def pyIntTrunc (q : ℚ) : Int :=
  if 0 ≤ q then ⌊q⌋ else -⌊-q⌋

/-- Zones of one page (body of the `_build_zones` page loop).  The ratio
multiplications `height * 0.2` and `height * 0.15` are exact rational
products here; the heights exercised by the concrete documents make the
float products exact as well. -/
def buildZonesForPage (pageIndex : Nat) (width height : Int) : List OCRZone :=
  let header_height := pyIntTrunc ((height : ℚ) * (1/5))
  let footer_height := pyIntTrunc ((height : ℚ) * (3/20))
  let header_height := min header_height height
  let footer_height := min footer_height (height - header_height)
  let body_top := header_height
  let body_bottom := max body_top (height - footer_height)
  let zone_defs : List (String × List ℚ) :=
    [("header", [0, 0, (width : ℚ), (header_height : ℚ)]),
     ("body", [0, (body_top : ℚ), (width : ℚ), (body_bottom : ℚ)]),
     ("footer", [0, (body_bottom : ℚ), (width : ℚ), (height : ℚ)])]
  zone_defs.filterMap fun zt =>
    let bbox_abs := zt.2
    if bbox_abs.getD 3 0 - bbox_abs.getD 1 0 ≤ 0 then none
    else some {
      zone_id := s!"p{pageIndex}-{zt.1}"
      zone_type := zt.1
      page := pageIndex
      bbox := bbox_abs
      bbox_rel := _to_relative_bbox bbox_abs width height }

/-- `_build_zones`: all zones plus the per-page map (pages with non-positive
dimensions are skipped). -/
def _build_zones (page_sizes : List (Int × Int)) :
    List OCRZone × List (Nat × List OCRZone) :=
  let pageZones := (page_sizes.enumFrom 1).filterMap fun iwh =>
    if iwh.2.1 ≤ 0 || iwh.2.2 ≤ 0 then none
    else some (iwh.1, buildZonesForPage iwh.1 iwh.2.1 iwh.2.2)
  (pageZones.foldr (fun pz acc => pz.2 ++ acc) [], pageZones)

/-! ### Anchor detection

The case-insensitive keyword regular expressions of `_anchor_patterns` are
embedded as sequences of a small pattern language.  Every pattern has the
shape `\b …literals/separator-classes… \b`; each alternative starts and ends
with a word character, so the boundary checks reduce to the neighbouring
characters not being word characters.  The separator classes (`[\s\-]*`,
`\s+`, `\s*`) never contain a character that can start the following
literal, so maximal munch is equivalent to the backtracking semantics. -/

inductive Pat where
  | lit (s : String)
  | seps
  | ws1
  | ws0
  | opt (s : String)
  deriving Repr, DecidableEq

/-- Case-insensitive literal match at the head; the remainder on success. -/
def matchLitCI : List Char → List Char → Option (List Char)
  | [], rest => some rest
  | _ :: _, [] => none
  | p :: ps, c :: cs => if lowerChar c = lowerChar p then matchLitCI ps cs else none

def isSepClassChar (c : Char) : Bool := isPySpace c || c = '-'

/-- All remainders after matching a pattern sequence at the head
(the `opt` constructor is the only source of branching). -/
def matchPats : List Pat → List Char → List (List Char)
  | [], s => [s]
  | Pat.lit l :: ps, s =>
    match matchLitCI l.data s with
    | some r => matchPats ps r
    | none => []
  | Pat.seps :: ps, s => matchPats ps (s.dropWhile isSepClassChar)
  | Pat.ws1 :: ps, s =>
    let r := s.dropWhile isPySpace
    if r.length < s.length then matchPats ps r else []
  | Pat.ws0 :: ps, s => matchPats ps (s.dropWhile isPySpace)
  | Pat.opt l :: ps, s =>
    (match matchLitCI l.data s with
     | some r => matchPats ps r
     | none => []) ++ matchPats ps s

/-- A set of alternatives matches at the current position, with the trailing
`\b` satisfied. -/
def altsMatchHere (alts : List (List Pat)) (s : List Char) : Bool :=
  alts.any fun alt =>
    (matchPats alt s).any fun r =>
      match r with
      | [] => true
      | c :: _ => !isWordChar c

/-- `pattern.search(text)`: scan all start positions, requiring the leading
`\b` (previous character absent or not a word character). -/
def searchPat (alts : List (List Pat)) : Option Char → List Char → Bool
  | _, [] => false
  | prev, c :: cs =>
    ((match prev with | none => true | some p => !isWordChar p) &&
      altsMatchHere alts (c :: cs)) ||
    searchPat alts (some c) cs

/-- `_anchor_patterns`, in dict insertion order. -/
def anchor_patterns : List (String × List (List Pat)) :=
  [("po_number", [[.lit "po", .seps, .lit "no"], [.lit "purchase", .ws1, .lit "order"]]),
   ("po_date", [[.lit "po", .seps, .lit "date"], [.lit "order", .ws1, .lit "date"]]),
   ("order_reference",
     [[.lit "order", .ws1, .lit "ref", .opt "erence"], [.lit "order", .ws1, .lit "id"]]),
   ("bill_to", [[.lit "bill", .ws0, .lit "to"], [.lit "invoicee"]]),
   ("ship_to", [[.lit "ship", .ws0, .lit "to"], [.lit "delivery", .ws1, .lit "address"]]),
   ("vendor", [[.lit "vendor"], [.lit "supplier"]]),
   ("invoice_number", [[.lit "invoice", .ws0, .lit "no"], [.lit "invoice", .ws1, .lit "number"]]),
   ("invoice_date", [[.lit "invoice", .ws0, .lit "date"]]),
   ("total", [[.lit "total"], [.lit "grand", .ws1, .lit "total"]]),
   ("subtotal", [[.lit "sub", .ws0, .lit "total"]]),
   ("tax", [[.lit "tax"], [.lit "gst"]])]

/-- `_match_anchor_label`: the first label (in table order) with any
matching pattern. -/
def _match_anchor_label (text : String) : Option String :=
  if text = "" then none
  else ((anchor_patterns.find? fun lp => searchPat lp.2 none text.data).map Prod.fst)

/-- `OCRAnchor` (schemas.py). -/
structure OCRAnchor where
  anchor_id : String
  label : String
  text : String
  page : Nat
  bbox : List ℚ
  bbox_rel : List ℚ
  zone_type : Option String := none
  token_ids : List String := []
  context_token_ids : List String := []
  context_window_px : Int := 300
  deriving Repr, DecidableEq

def bboxGet (l : List ℚ) (i : Nat) : ℚ := l.getD i 0

/-- The anchor id format `f"p{page}-a{n}"`. -/
def mkAnchorId (page n : Nat) : String := s!"p{page}-a{n}"

/-- `_gather_context_tokens`. -/
def _gather_context_tokens (page_tokens : List OCRToken) (anchor_bbox : List ℚ)
    (context_window_px : Int) (anchor_token_ids : List String) : List String :=
  let x1 := bboxGet anchor_bbox 0
  let y1 := bboxGet anchor_bbox 1
  let context_x2 := bboxGet anchor_bbox 2 + (context_window_px : ℚ)
  let context_y2 := bboxGet anchor_bbox 3 + (context_window_px : ℚ)
  (page_tokens.filter fun token =>
    !(anchor_token_ids.contains token.id) &&
      (let tx1 := bboxGet token.bbox 0
       let ty1 := bboxGet token.bbox 1
       tx1 ≥ x1 && tx1 ≤ context_x2 && ty1 ≥ y1 && ty1 ≤ context_y2)).map (·.id)

/-- `_zone_type_for_bbox`: first zone whose rectangle contains the bbox
center. -/
def _zone_type_for_bbox (zones : List OCRZone) (bbox : List ℚ) : Option String :=
  let cx := (bboxGet bbox 0 + bboxGet bbox 2) / 2
  let cy := (bboxGet bbox 1 + bboxGet bbox 3) / 2
  (zones.find? fun zone =>
    bboxGet zone.bbox 0 ≤ cx && cx ≤ bboxGet zone.bbox 2 &&
      bboxGet zone.bbox 1 ≤ cy && cy ≤ bboxGet zone.bbox 3).map (·.zone_type)

def pageSizeAt (page_sizes : List (Int × Int)) (i : Nat) : Int × Int :=
  page_sizes.getD i (0, 0)

/-- The block loop of `_detect_anchors` for one page, threading the
document-wide anchor accumulator whose length numbers new anchor ids. -/
def anchorsInBlocks (pageNumber : Nat) (width height : Int)
    (pageTokens : List OCRToken) (zones : List OCRZone)
    (context_window_px : Int) :
    List OCRBlock → List OCRAnchor → List OCRAnchor
  | [], acc => acc
  | block :: rest, acc =>
    match _match_anchor_label block.text with
    | none => anchorsInBlocks pageNumber width height pageTokens zones
        context_window_px rest acc
    | some label =>
      let bbox_abs := match block.bbox with
        | some b => if b = [] then [0, 0, 0, 0] else b
        | none => [0, 0, 0, 0]
      let bbox_rel := match block.bbox_rel with
        | some b => if b = [] then _to_relative_bbox bbox_abs width height else b
        | none => _to_relative_bbox bbox_abs width height
      let token_ids := (block.tokens.getD []).map (·.id)
      let context_token_ids := _gather_context_tokens pageTokens bbox_abs
        context_window_px token_ids
      let zone_type := _zone_type_for_bbox zones bbox_abs
      let anchor : OCRAnchor := {
        anchor_id := mkAnchorId pageNumber (acc.length + 1)
        label := label
        text := block.text
        page := pageNumber
        bbox := bbox_abs
        bbox_rel := bbox_rel
        zone_type := zone_type
        token_ids := token_ids
        context_token_ids := context_token_ids
        context_window_px := context_window_px }
      anchorsInBlocks pageNumber width height pageTokens zones context_window_px
        rest (acc ++ [anchor])

/-- The page loop of `_detect_anchors`. -/
def anchorsInPages (zones_by_page : List (Nat × List OCRZone))
    (page_sizes : List (Int × Int)) (context_window_px : Int) :
    List OCRPage → List OCRAnchor → List OCRAnchor
  | [], acc => acc
  | page :: rest, acc =>
    match page.blocks with
    | none => anchorsInPages zones_by_page page_sizes context_window_px rest acc
    | some [] => anchorsInPages zones_by_page page_sizes context_window_px rest acc
    | some blocks =>
      let width := match page.width with
        | some w => if w ≠ 0 then w else (pageSizeAt page_sizes (page.page_number - 1)).1
        | none => (pageSizeAt page_sizes (page.page_number - 1)).1
      let height := match page.height with
        | some h => if h ≠ 0 then h else (pageSizeAt page_sizes (page.page_number - 1)).2
        | none => (pageSizeAt page_sizes (page.page_number - 1)).2
      let pageTokens := page.tokens.getD []
      let zones := ((zones_by_page.find? fun pz => pz.1 = page.page_number).map
        Prod.snd).getD []
      let acc' := anchorsInBlocks page.page_number width height pageTokens zones
        context_window_px blocks acc
      anchorsInPages zones_by_page page_sizes context_window_px rest acc'

/-- `_detect_anchors` (default context window 300 px). -/
def _detect_anchors (pages : List OCRPage)
    (zones_by_page : List (Nat × List OCRZone)) (page_sizes : List (Int × Int)) :
    List OCRAnchor :=
  anchorsInPages zones_by_page page_sizes 300 pages []

/-! ### Table detection -/

/-- `_is_table_line`: non-empty after stripping and containing a whitespace
run of length ≥ 2. -/
def _is_table_line (text : String) : Bool :=
  if text = "" then false
  else
    let stripped := pyStrip text
    if stripped = "" then false else hasDoubleWs stripped.data

/-- `_split_table_cells`: split the stripped text on whitespace runs of
length ≥ 2, strip each segment and drop falsy ones. -/
def _split_table_cells (text : String) : List String :=
  if text = "" then []
  else
    let stripped := pyStrip text
    if stripped = "" then []
    else ((splitOnDoubleWs stripped.data).map fun seg =>
        pyStrip (⟨seg⟩ : String)).filter fun seg => seg ≠ ""

/-- `_normalise_segments`: right-pad short rows with empty strings and merge
the excess trailing segments of long rows (space-joined) into the last
column. -/
def _normalise_segments (segments : List String) (expected_columns : Nat) :
    List String :=
  if expected_columns = 0 then segments
  else if segments.length = expected_columns then segments
  else if segments.length < expected_columns then
    segments ++ List.replicate (expected_columns - segments.length) ""
  else
    segments.take (expected_columns - 1) ++
      [String.intercalate " " (segments.drop (expected_columns - 1))]

/-- The cell loop of `_build_row_cells`, threading the cumulative character
count. -/
def buildRowCellsLoop (table_id : String) (row_index : Nat) (x1 y1 y2 : ℚ)
    (row_width : ℚ) (total_chars : Nat) (page_width page_height : Int)
    (token_ids : List String) (is_header : Bool) :
    List String → Nat → Nat → List OCRTableCell
  | [], _, _ => []
  | segment :: rest, col_index, cumulative =>
    let segment_char_count := max segment.length 1
    let start_ratio : ℚ := (cumulative : ℚ) / (total_chars : ℚ)
    let cumulative' := cumulative + segment_char_count
    let end_ratio : ℚ := (cumulative' : ℚ) / (total_chars : ℚ)
    let cell_x1 := x1 + row_width * start_ratio
    let cell_x2 := x1 + row_width * end_ratio
    let cell_bbox := [cell_x1, y1, cell_x2, y2]
    let hints : Meta := if pyStrip segment = "" then [("empty", .b true)] else []
    { cell_id := s!"{table_id}-r{row_index}c{col_index}"
      row := row_index
      column := col_index
      text := segment
      bbox := cell_bbox
      bbox_rel := _to_relative_bbox cell_bbox page_width page_height
      row_span := 1
      column_span := 1
      is_header := is_header
      token_ids := token_ids
      hints := hints } ::
    buildRowCellsLoop table_id row_index x1 y1 y2 row_width total_chars
      page_width page_height token_ids is_header rest (col_index + 1) cumulative'

/-- `_build_row_cells`. -/
def _build_row_cells (table_id : String) (row_index : Nat) (row_bbox : List ℚ)
    (segments : List String) (column_count : Nat) (page_width page_height : Int)
    (token_ids : List String) (is_header : Bool) : List OCRTableCell :=
  let x1 := bboxGet row_bbox 0
  let y1 := bboxGet row_bbox 1
  let x2 := bboxGet row_bbox 2
  let y2 := bboxGet row_bbox 3
  let row_width := max (x2 - x1) 1
  let charSum := (segments.map fun s => max s.length 1).foldl (· + ·) 0
  let total_chars := if charSum = 0 then column_count else charSum
  buildRowCellsLoop table_id row_index x1 y1 y2 row_width total_chars
    page_width page_height token_ids is_header segments 0 0

/-- The row loop of `_build_table_from_blocks`. -/
def buildTableRows (table_id : String) (column_count : Nat) (table_bbox : List ℚ)
    (page_width page_height : Int) :
    List OCRBlock → Nat → List OCRTableCell
  | [], _ => []
  | block :: rest, row_index =>
    let segments := _normalise_segments (_split_table_cells block.text) column_count
    let row_bbox := match block.bbox with
      | some b => if b = [] then table_bbox else b
      | none => table_bbox
    let row_tokens := (block.tokens.getD []).map (·.id)
    _build_row_cells table_id row_index row_bbox segments column_count
      page_width page_height row_tokens (row_index = 0) ++
    buildTableRows table_id column_count table_bbox page_width page_height
      rest (row_index + 1)

/-- Python `min(...)` over a non-empty sequence (the empty case raises in
Python and is unreachable here). -/
def listMin : List ℚ → ℚ
  | [] => 0
  | x :: xs => xs.foldl min x

/-- Python `max(...)` over a non-empty sequence. -/
def listMax : List ℚ → ℚ
  | [] => 0
  | x :: xs => xs.foldl max x

/-- `block.bbox[i] if block.bbox else dflt` (bbox falsy = absent or empty). -/
def blockBboxGetD (block : OCRBlock) (i : Nat) (dflt : ℚ) : ℚ :=
  match block.bbox with
  | some b => if b = [] then dflt else bboxGet b i
  | none => dflt

/-- `_build_table_from_blocks`. -/
def _build_table_from_blocks (page : OCRPage) (run_blocks : List OCRBlock)
    (table_index : Nat) (page_sizes : List (Int × Int)) : Option OCRTable :=
  let header_segments := _split_table_cells ((run_blocks.head?.map (·.text)).getD "")
  let column_count := header_segments.length
  if column_count = 0 then none
  else
    let page_width : Int := match page.width with
      | some w => if w ≠ 0 then w else (pageSizeAt page_sizes (page.page_number - 1)).1
      | none => (pageSizeAt page_sizes (page.page_number - 1)).1
    let page_height : Int := match page.height with
      | some h => if h ≠ 0 then h else (pageSizeAt page_sizes (page.page_number - 1)).2
      | none => (pageSizeAt page_sizes (page.page_number - 1)).2
    if page_width ≤ 0 || page_height ≤ 0 then none
    else
      let table_x1 := listMin ((run_blocks.map fun b => blockBboxGetD b 0 (page_width : ℚ)))
      let table_y1 := listMin ((run_blocks.map fun b => blockBboxGetD b 1 (page_height : ℚ)))
      let table_x2 := listMax ((run_blocks.map fun b => blockBboxGetD b 2 0))
      let table_y2 := listMax ((run_blocks.map fun b => blockBboxGetD b 3 0))
      let table_bbox := [table_x1, table_y1, table_x2, table_y2]
      let table_id := s!"p{page.page_number}-t{table_index}"
      let cells := buildTableRows table_id column_count table_bbox
        page_width page_height run_blocks 0
      some {
        table_id := table_id
        page := page.page_number
        bbox := table_bbox
        bbox_rel := _to_relative_bbox table_bbox page_width page_height
        header_rows := [0]
        column_headers := header_segments
        n_rows := run_blocks.length
        n_cols := column_count
        cells := cells }

/-- Split the page blocks into maximal runs of consecutive table-line
candidates (the run grouping loop of `_detect_tables`). -/
def tableCandidateRuns : List OCRBlock → List OCRBlock → List (List OCRBlock)
  | [], current => if current = [] then [] else [current]
  | block :: rest, current =>
    let text := if block.text ≠ "" then pyStrip block.text else ""
    if _is_table_line text then tableCandidateRuns rest (current ++ [block])
    else if current = [] then tableCandidateRuns rest []
    else current :: tableCandidateRuns rest []

/-- The run loop of `_detect_tables` on one page, threading the per-page
table counter (`len(page_tables) + 1`). -/
def tablesFromRuns (page : OCRPage) (page_sizes : List (Int × Int)) :
    List (List OCRBlock) → Nat → List OCRTable
  | [], _ => []
  | run_blocks :: rest, built =>
    if run_blocks.length < 2 then tablesFromRuns page page_sizes rest built
    else
      match _build_table_from_blocks page run_blocks (built + 1) page_sizes with
      | some table => table :: tablesFromRuns page page_sizes rest (built + 1)
      | none => tablesFromRuns page page_sizes rest built

/-- `_detect_tables` (the mutation of `page.tables` is not modelled; only
the returned list feeds the claims). -/
def _detect_tables (pages : List OCRPage) (page_sizes : List (Int × Int)) :
    List OCRTable :=
  pages.foldr
    (fun page acc =>
      match page.blocks with
      | none => acc
      | some [] => acc
      | some blocks =>
        tablesFromRuns page page_sizes (tableCandidateRuns blocks []) 0 ++ acc)
    []

/-! ### Field candidate extraction -/

/-- `_anchor_label_to_field` (note: `bill_to` and `ship_to` have no
mapping). -/
def _anchor_label_to_field (label : String) : Option String :=
  ([("po_number", "po_number"), ("po_date", "po_date"),
    ("order_reference", "order_reference"), ("vendor", "vendor_name"),
    ("invoice_number", "invoice_number"), ("invoice_date", "invoice_date"),
    ("total", "grand_total"), ("subtotal", "subtotal"), ("tax", "tax_total"),
    ("currency", "currency")].find? fun kv => kv.1 = label).map Prod.snd

def isAlnumAscii (c : Char) : Bool :=
  isDigitChar c || ('a' ≤ c && c ≤ 'z') || ('A' ≤ c && c ≤ 'Z')

def isIdentTailChar (c : Char) : Bool :=
  isAlnumAscii c || c = '-' || c = '_' || c = '/'

/-- `re.search(r"[A-Za-z0-9][A-Za-z0-9\-_/]*", text)`: the match starting at
the first alphanumeric character. -/
def findAlnumMatch (l : List Char) : Option String :=
  match l.dropWhile (fun c => !isAlnumAscii c) with
  | [] => none
  | c :: rest => some ⟨c :: rest.takeWhile isIdentTailChar⟩

/-- `_find_alphanumeric`. -/
def _find_alphanumeric (tokens : List OCRToken) (exclude : Option String) :
    Option (String × OCRToken) :=
  tokens.findSome? fun token =>
    let text := pyStrip token.text
    if text = "" then none
    else if (match exclude with
        | some e => e ≠ "" && lowerStr text = lowerStr e
        | none => false) then none
    else
      match findAlnumMatch text.data with
      | some m => some (m, token)
      | none => none

/-- Prefix match of
`\d{1,2}[\/\-]\d{1,2}[\/\-]\d{2,4}|\d{4}[\/\-]\d{1,2}[\/\-]\d{1,2}`
(`.match`, unanchored at the end). -/
def dateLooseMatch (l : List Char) : Bool :=
  let r1 := l.takeWhile isDigitChar
  match l.dropWhile isDigitChar with
  | s1 :: t1 =>
    if s1 = '/' || s1 = '-' then
      let r2 := t1.takeWhile isDigitChar
      match t1.dropWhile isDigitChar with
      | s2 :: t2 =>
        if (s2 = '/' || s2 = '-') && decide (1 ≤ r2.length) && decide (r2.length ≤ 2) then
          let r3 := t2.takeWhile isDigitChar
          if decide (1 ≤ r1.length) && decide (r1.length ≤ 2) then decide (2 ≤ r3.length)
          else decide (r1.length = 4) && decide (1 ≤ r3.length)
        else false
      | [] => false
    else false
  | _ => false

def hintsMaybe (t : OCRToken) (v : String) : Bool :=
  match t.hints with
  | some md => metaGet md "maybe" = some (.s v)
  | none => false

/-- `_find_date_value`. -/
def _find_date_value (tokens : List OCRToken) : Option (String × OCRToken) :=
  tokens.findSome? fun token =>
    let text := pyStrip token.text
    if text = "" then none
    else if hintsMaybe token "date" then some (text, token)
    else if dateLooseMatch text.data then some (text, token)
    else none

/-- Prefix match of `[₹$€£]?\s?[\d,]+(?:\.\d+)?` (`.match`): the matched
prefix, if any. -/
def moneyPatternMatch (l : List Char) : Option (List Char) :=
  let afterGlyph : List Char × List Char :=
    match l with
    | c :: rest => if isCurrencyGlyph c then ([c], rest) else ([], l)
    | [] => ([], l)
  let (glyphPart, rest0) := afterGlyph
  let (spacePart, rest1) : List Char × List Char :=
    match rest0 with
    | c :: rest => if isPySpace c then ([c], rest) else ([], rest0)
    | [] => ([], rest0)
  let run := rest1.takeWhile fun c => isDigitChar c || c = ','
  if run = [] then none
  else
    let rest2 := rest1.dropWhile fun c => isDigitChar c || c = ','
    let fracPart : List Char :=
      match rest2 with
      | '.' :: t =>
        let fr := t.takeWhile isDigitChar
        if fr = [] then [] else '.' :: fr
      | _ => []
    some (glyphPart ++ spacePart ++ run ++ fracPart)

/-- `_find_money_value`. -/
def _find_money_value (tokens : List OCRToken) : Option (String × OCRToken) :=
  tokens.findSome? fun token =>
    let text := pyStrip token.text
    if text = "" then none
    else if hintsMaybe token "money" then some (text, token)
    else
      match moneyPatternMatch text.data with
      | some grp =>
        if grp.any isDigitChar then some ((⟨grp⟩ : String), token) else none
      | none => none

/-- `_find_textual_value` (minimum length 3 at the call site). -/
def _find_textual_value (tokens : List OCRToken) (min_length : Nat) :
    Option (String × OCRToken) :=
  tokens.findSome? fun token =>
    let text := pyStrip token.text
    if decide (min_length ≤ text.length) &&
        text.data.any (fun c => ('a' ≤ c && c ≤ 'z') || ('A' ≤ c && c ≤ 'Z')) then
      some (text, token)
    else none

/-- `_find_currency_value`. -/
def _find_currency_value (tokens : List OCRToken) : Option (String × OCRToken) :=
  let currency_words := ["inr", "rs", "usd", "eur", "gbp", "cad", "aud"]
  tokens.findSome? fun token =>
    let text := pyStrip token.text
    if text = "" then none
    else if hintsMaybe token "money" then
      match token.hints.bind (fun md => metaGet md "glyph") with
      | some (.s g) => some (g, token)
      | _ =>
        if currency_words.contains (lowerStr text) then some (upperStr text, token)
        else none
    else if currency_words.contains (lowerStr text) then some (upperStr text, token)
    else none

/-- `token_lookup[tid] if tid in token_lookup` (document token ids are
unique, so first-match lookup coincides with the dict). -/
def tokenLookup (tokens : List OCRToken) (tid : String) : Option OCRToken :=
  tokens.find? fun t => t.id = tid

/-- `_extract_candidate_value`. -/
def _extract_candidate_value (field : String) (anchor : OCRAnchor)
    (document_tokens : List OCRToken) : Option (String × OCRToken) :=
  let context_ids := anchor.token_ids ++ anchor.context_token_ids
  let context_tokens := context_ids.filterMap (tokenLookup document_tokens)
  if field = "po_number" || field = "order_reference" || field = "invoice_number" then
    _find_alphanumeric context_tokens (some anchor.text)
  else if field = "po_date" || field = "invoice_date" then
    _find_date_value context_tokens
  else if field = "grand_total" || field = "subtotal" || field = "tax_total" then
    _find_money_value context_tokens
  else if field = "vendor_name" then
    _find_textual_value context_tokens 3
  else if field = "currency" then
    _find_currency_value context_tokens
  else none

/-- `_build_candidate_from_anchor`. -/
def _build_candidate_from_anchor (field : String) (anchor : OCRAnchor)
    (document_tokens : List OCRToken) : Option FieldCandidate :=
  match _extract_candidate_value field anchor document_tokens with
  | none => none
  | some (candidate_text, evidence_token) =>
    if candidate_text = "" then none
    else
      some {
        value_raw := some candidate_text
        evidence := {
          page := some anchor.page
          bbox := evidence_token.bbox
          bbox_rel := evidence_token.bbox_rel
          anchor_id := some anchor.anchor_id
          anchor_label := some anchor.label
          token_ids := [evidence_token.id] } }

/-- `field_candidates.setdefault(field, []).append(candidate)`. -/
def candAppend (c : Candidates) (field : String) (candidate : FieldCandidate) :
    Candidates :=
  if c.any (fun kv => kv.1 = field) then
    c.map fun kv => if kv.1 = field then (kv.1, kv.2 ++ [candidate]) else kv
  else c ++ [(field, [candidate])]

/-- `_derive_currency_candidates`, iterating the token dict in document
order and de-duplicating by value. -/
def deriveCurrencyLoop : List OCRToken → List String → List FieldCandidate
  | [], _ => []
  | token :: rest, seen =>
    match token.hints with
    | none => deriveCurrencyLoop rest seen
    | some md =>
      if metaGet md "maybe" ≠ some (.s "money") then deriveCurrencyLoop rest seen
      else
        let value := match metaGet md "glyph" with
          | some (.s g) => if g ≠ "" then g else pyStrip token.text
          | _ => pyStrip token.text
        if value = "" || seen.contains value then deriveCurrencyLoop rest seen
        else
          { value_raw := some value
            evidence := {
              page := some token.page
              bbox := token.bbox
              bbox_rel := token.bbox_rel
              anchor_id := none
              anchor_label := none
              token_ids := [token.id] } } ::
          deriveCurrencyLoop rest (seen ++ [value])

/-- `_extract_field_candidates`. -/
def _extract_field_candidates (anchors : List OCRAnchor)
    (document_tokens : List OCRToken) : Candidates :=
  if anchors = [] && document_tokens = [] then []
  else
    let from_anchors := anchors.foldl
      (fun acc anchor =>
        match _anchor_label_to_field anchor.label with
        | none => acc
        | some field =>
          match _build_candidate_from_anchor field anchor document_tokens with
          | some candidate => candAppend acc field candidate
          | none => acc)
      []
    if (from_anchors.find? fun kv => kv.1 = "currency").isSome then from_anchors
    else
      match deriveCurrencyLoop document_tokens [] with
      | [] => from_anchors
      | currency_candidates => from_anchors ++ [("currency", currency_candidates)]

/-! ### Pipeline composition (`extract_from_pdf` after the OCR engine call) -/

/-- The assembled document result (the slice of `OCRResult` the claims
read). -/
structure DocResult where
  pages : List OCRPage
  full_text : String
  tokens : List OCRToken
  zones : List OCRZone
  anchors : List OCRAnchor
  tables : List OCRTable
  candidates : Candidates
  hints : OCRDocumentHints
  normalized : Option NormalizationSummary
  deriving Repr, DecidableEq

/-- Propagate the hints written by `_apply_token_hints` into the token
objects shared by pages and blocks (Python mutates the single token objects
in place; the map reproduces that aliasing). -/
def hintPages (pages : List OCRPage) : List OCRPage :=
  pages.map fun page =>
    { page with
      tokens := page.tokens.map (List.map hintToken)
      blocks := page.blocks.map (List.map fun b =>
        { b with tokens := b.tokens.map (List.map hintToken) }) }

/-- The document pipeline from raw per-page OCR lines to the result, exactly
the stage order of `extract_from_pdf`. -/
def extract_document (doc : List InPage) : DocResult :=
  let page_sizes := doc.map fun p => (p.width, p.height)
  let (pages0, document_tokens0) := _normalise_pages doc
  let (document_tokens, stats) := _apply_token_hints document_tokens0
  let pages := hintPages pages0
  let full_text := String.intercalate "\n\n"
    ((pages.map (·.text)).filter fun t => t ≠ "")
  let (zones, zones_by_page) := _build_zones page_sizes
  let anchors := _detect_anchors pages zones_by_page page_sizes
  let tables := _detect_tables pages page_sizes
  let candidates := _extract_field_candidates anchors document_tokens
  let document_hints := _compute_document_hints stats
  let normalized := normalize_document candidates (some document_hints)
    (if tables = [] then none else some tables)
  { pages := pages
    full_text := full_text
    tokens := document_tokens
    zones := zones
    anchors := anchors
    tables := tables
    candidates := candidates
    hints := document_hints
    normalized := normalized }

/-! ### Concrete documents used by the claims -/

/-- The four-line end-to-end document of the spec (§8).  The spec fixes only
the line texts; page size and line geometry are instantiated with
representative values (1000×1000 page, lines top to bottom). -/
def endToEndDoc : List InPage :=
  [{ width := 1000, height := 1000,
     lines := [
       { text := some "PURCHASE ORDER NO: PO-88214", confidence := some (9/10),
         bbox := some [50, 50, 500, 70] },
       { text := some "Ship To: Acme Corp, 123 Main St, Springfield, IL 62704",
         confidence := some (9/10), bbox := some [50, 100, 600, 120] },
       { text := some "ITEM  QTY  PRICE", confidence := some (9/10),
         bbox := some [50, 300, 400, 320] },
       { text := some "Widget  10  5.00", confidence := some (9/10),
         bbox := some [50, 340, 400, 360] }] }]

/-- The normalized value recorded for a field in a document result. -/
def resultField (r : DocResult) (field : String) : Option NormalizedFieldValue :=
  r.normalized.bind fun s =>
    (s.fields.find? fun kv => kv.1 = field).map Prod.snd

/-! ## Theorems for the claims -/

/-- **C1, counterexample.**  On the four-line document the pipeline does
produce a `po_number` anchor, a `ship_to` anchor and exactly one table with
2 rows and 3 columns, but `normalized.fields.po_number.normalized` is
`"PURCHASE"`, not `"PO-88214"`: the identifier search walks the anchor's own
word tokens first and only a token textually equal to the whole anchor text
(`"PURCHASE ORDER NO: PO-88214"`) is excluded, so the first word
`"PURCHASE"` wins.  This falsifies the claim's final conjunct. -/
theorem C1_counterexample :
    (extract_document endToEndDoc).anchors.map (fun a => a.label) =
      ["po_number", "ship_to"] ∧
    ((extract_document endToEndDoc).tables.map fun t => (t.n_rows, t.n_cols)) =
      [(2, 3)] ∧
    (resultField (extract_document endToEndDoc) "po_number").map
      (fun v => v.normalized) ≠ some (some "PO-88214") := by
  refine ⟨by decide, by decide, by decide⟩

/-- **C1, amended.**  As the claim states, the four-line document yields an
anchor labeled `po_number`, an anchor labeled `ship_to` and exactly one
table with 2 rows and 3 columns — but the normalized `po_number` value is
`"PURCHASE"` (the first word token of the anchor's own block that is not
textually equal to the whole anchor text), not `"PO-88214"`. -/
theorem C1_amended :
    (extract_document endToEndDoc).anchors.map (fun a => a.label) =
      ["po_number", "ship_to"] ∧
    ((extract_document endToEndDoc).tables.map fun t => (t.n_rows, t.n_cols)) =
      [(2, 3)] ∧
    (resultField (extract_document endToEndDoc) "po_number").map
      (fun v => v.normalized) = some (some "PURCHASE") := by
  refine ⟨by decide, by decide, by decide⟩

/-- The parsed value of `_parse_number` is `Decimal(...)` applied to the
separator-resolved cleaned string. -/
theorem parse_number_val (raw : String) (hints : Option OCRDocumentHints)
    (h : pyStrip raw ≠ "") :
    (_parse_number (some raw) hints).1 =
      parsePyDecimal (numSeparatorResolve ((pyStrip raw).data.filter fun c =>
        isDigitChar c || c = ',' || c = '.' || c = '-') hints
        (metaSet [] "raw" (.s (pyStrip raw)))).1 := by
  simp only [_parse_number]
  rw [if_neg h]
  cases hp : parsePyDecimal (numSeparatorResolve ((pyStrip raw).data.filter fun c =>
      isDigitChar c || c = ',' || c = '.' || c = '-') hints
      (metaSet [] "raw" (.s (pyStrip raw)))).1 <;> simp [hp]

/-- **C5.**  Number parsing: with the cleaned string obtained by keeping
only digits, comma, dot and minus, (a) when both a comma and a dot occur the
one occurring last (by `rfind`) is the decimal separator and the other is
removed as a grouping separator; (b) when only commas occur the
numbering-style hint decides — Indian grouping removes the commas, any other
style turns the comma into the decimal separator.  In particular
`"1,000.50"` under numbering style `"international"` parses to `1000.50`
and `"1,00,000"` under `"indian"` parses to `100000`. -/
theorem C5_number_parsing :
    (∀ (raw : String) (hints : Option OCRDocumentHints) (cleaned : List Char),
      pyStrip raw ≠ "" →
      cleaned = (pyStrip raw).data.filter (fun c =>
        isDigitChar c || c = ',' || c = '.' || c = '-') →
      (0 < cleaned.count ',' →
        0 < cleaned.count '.' →
        (_parse_number (some raw) hints).1 =
          (if pyRfind cleaned ',' > pyRfind cleaned '.' then
            parsePyDecimal ((cleaned.filter fun c => c ≠ '.').map
              fun c => if c = ',' then '.' else c)
          else parsePyDecimal (cleaned.filter fun c => c ≠ ','))) ∧
      (0 < cleaned.count ',' →
        cleaned.count '.' = 0 →
        (_parse_number (some raw) hints).1 =
          (if hintsIndian hints then parsePyDecimal (cleaned.filter fun c => c ≠ ',')
           else parsePyDecimal (cleaned.map fun c => if c = ',' then '.' else c)))) ∧
    ((_parse_number (some "1,000.50")
        (some { numbering_style := some "international" })).1 = some ⟨100050, 2⟩) ∧
    PyDecimal.toRat ⟨100050, 2⟩ = (1000.5 : ℚ) ∧
    ((_parse_number (some "1,00,000")
        (some { numbering_style := some "indian" })).1 = some ⟨100000, 0⟩) ∧
    PyDecimal.toRat ⟨100000, 0⟩ = (100000 : ℚ) := by
  refine ⟨?_, by decide, by norm_num [PyDecimal.toRat], by decide,
    by norm_num [PyDecimal.toRat]⟩
  intro raw hints cleaned hne hcl
  constructor
  · intro h1 h2
    rw [parse_number_val raw hints hne, ← hcl]
    unfold numSeparatorResolve
    rw [if_pos ⟨h1, h2⟩]
    split <;> rfl
  · intro h1 h2
    rw [parse_number_val raw hints hne, ← hcl]
    unfold numSeparatorResolve
    rw [if_neg (by omega : ¬(0 < cleaned.count ',' ∧ 0 < cleaned.count '.')),
      if_pos ⟨h1, h2⟩]
    split <;> rfl

/-- **C5, witness.**  The general clauses applied to `"1.234,56"` (comma
last: the comma becomes the decimal separator, dots are removed) and
`"1,000"` without an Indian hint (the comma becomes the decimal
separator). -/
theorem C5_number_parsing_witness :
    ((_parse_number (some "1.234,56") none).1 = some ⟨123456, 2⟩) ∧
    ((_parse_number (some "1,000") none).1 = some ⟨1000, 3⟩) := by
  constructor
  · have h2 := (C5_number_parsing.1 "1.234,56" none ("1.234,56".data)
      (by decide) (by decide)).1 (by decide) (by decide)
    rw [h2]; decide
  · have h2 := (C5_number_parsing.1 "1,000" none ("1,000".data)
      (by decide) (by decide)).2 (by decide) (by decide)
    rw [h2]; decide

/-- The status rule asserted by claim C3, written from its words: `"ok"`
exactly when the grand total is known and the difference is within 0.01;
`"mismatch"` when the grand total is known but the difference exceeds 0.01;
`"insufficient"` when the grand total is unknown but a partial total exists;
`"missing"` in every other case. -/
def claimC3Status (grand recomputed subtotal tax : Option PyDecimal) : String :=
  match grand, recomputed with
  | some g, some r =>
    if PyDecimal.le (PyDecimal.abs (PyDecimal.sub g r)) ⟨1, 2⟩ then "ok" else "mismatch"
  | some _, none => "missing"
  | none, _ =>
    if subtotal.isSome || tax.isSome || recomputed.isSome then "insufficient"
    else "missing"

/-- **C3, counterexample.**  With a grand-total candidate that parses (grand
= 10.00) but no tables and no subtotal/tax, the breakdown has no recomputed
value; the claim's rule then demands status `"missing"` (it is not "ok",
not "mismatch", and the grand total is not unknown), but the code returns
`"insufficient"`. -/
theorem C3_counterexample :
    (((_build_totals_breakdown
        [("grand_total", [{ value_raw := some "10.00", evidence := {} }])]
        none none none none (some ⟨1000, 2⟩)).map fun b =>
          (b.status, b.recomputed_total, b.difference)) =
      some ("insufficient", none, none)) ∧
    claimC3Status (some ⟨1000, 2⟩) none none none = "missing" ∧
    "insufficient" ≠ "missing" := by
  refine ⟨by decide, by decide, by decide⟩

/-- The status and difference fields of a successfully built totals
breakdown, as functions of the grand total and the recomputed value. -/
theorem build_totals_fields (cands : Candidates) (hints : Option OCRDocumentHints)
    (tables : Option (List OCRTable)) (st tx g : Option PyDecimal)
    (b : TotalsBreakdown)
    (h : _build_totals_breakdown cands hints tables st tx g = some b) :
    b.status = totalsStatus g
      (totalsFallback (_recompute_totals_from_tables tables hints cands).1 st tx) st tx ∧
    b.difference = totalsDifference g
      (totalsFallback (_recompute_totals_from_tables tables hints cands).1 st tx) := by
  unfold _build_totals_breakdown at h
  split at h
  · exact absurd h (by simp)
  · split at h
    · exact absurd h (by simp)
    · injection h with h
      subst h
      exact ⟨rfl, rfl⟩

/-- **C3, amended.**  The breakdown status is `"ok"` exactly when the grand
total is known and |grand − recomputed| ≤ 0.01; `"mismatch"` when both are
known and the difference exceeds 0.01; `"insufficient"` when the grand
total is known but no recomputed value exists, **or** the grand total is
unknown but some partial total (subtotal, tax or recomputed value) exists;
and `"missing"` in every other case.  The numeric difference is populated
exactly when both the grand total and the recomputed value exist.  (The
claim as stated puts the "grand known, recomputed absent" case under
`"missing"`; the code files it under `"insufficient"`.) -/
theorem C3_amended_status (cands : Candidates) (hints : Option OCRDocumentHints)
    (tables : Option (List OCRTable)) (st tx g : Option PyDecimal)
    (b : TotalsBreakdown)
    (h : _build_totals_breakdown cands hints tables st tx g = some b)
    (recomputed : Option PyDecimal)
    (hr : recomputed =
      totalsFallback (_recompute_totals_from_tables tables hints cands).1 st tx) :
    (b.status = "ok" ↔ ∃ gv rv, g = some gv ∧ recomputed = some rv ∧
      PyDecimal.le (PyDecimal.abs (PyDecimal.sub gv rv)) ⟨1, 2⟩ = true) ∧
    (b.status = "mismatch" ↔ ∃ gv rv, g = some gv ∧ recomputed = some rv ∧
      PyDecimal.le (PyDecimal.abs (PyDecimal.sub gv rv)) ⟨1, 2⟩ = false) ∧
    (b.status = "insufficient" ↔ ((g ≠ none ∧ recomputed = none) ∨
      (g = none ∧ (st ≠ none ∨ tx ≠ none ∨ recomputed ≠ none)))) ∧
    (b.status = "missing" ↔ (g = none ∧ st = none ∧ tx = none ∧ recomputed = none)) ∧
    (b.difference ≠ none ↔ (g ≠ none ∧ recomputed ≠ none)) := by
  obtain ⟨hs, hd⟩ := build_totals_fields cands hints tables st tx g b h
  rw [← hr] at hs hd
  rw [hs, hd]
  clear hs hd h hr
  cases g <;> cases recomputed <;> cases st <;> cases tx <;>
    simp [totalsStatus, totalsDifference] <;>
    split <;> simp_all

/-- A successfully built breakdown is the assembled record. -/
theorem build_totals_eq (cands : Candidates) (hints : Option OCRDocumentHints)
    (tables : Option (List OCRTable)) (st tx g : Option PyDecimal)
    (b : TotalsBreakdown)
    (h : _build_totals_breakdown cands hints tables st tx g = some b) :
    b = buildTotalsRecord cands hints tables st tx g := by
  unfold _build_totals_breakdown at h
  split at h
  · exact absurd h (by simp)
  · split at h
    · exact absurd h (by simp)
    · exact (Option.some.inj h).symm

/-- **C3, witness.**  The amended characterisation applied to the
counterexample input (grand total known, nothing recomputable): status
`"insufficient"`, no difference. -/
theorem C3_amended_status_witness :
    (_build_totals_breakdown
        [("grand_total", [{ value_raw := some "10.00", evidence := {} }])]
        none none none none (some ⟨1000, 2⟩)).isSome = true ∧
    ∀ b, _build_totals_breakdown
        [("grand_total", [{ value_raw := some "10.00", evidence := {} }])]
        none none none none (some ⟨1000, 2⟩) = some b →
      b.status = "insufficient" := by
  refine ⟨by decide, ?_⟩
  intro b h
  have hc := C3_amended_status
    [("grand_total", [{ value_raw := some "10.00", evidence := {} }])]
    none none none none (some ⟨1000, 2⟩) b h none (by decide)
  exact hc.2.2.1.mpr (Or.inl ⟨by simp, rfl⟩)

/-- The rightmost-column sum of one table, when any amount parsed (the value
component of the loop body of `_recompute_totals_from_tables`). -/
def tableLastColSum (hints : Option OCRDocumentHints) (t : OCRTable) :
    Option PyDecimal :=
  (tableHit hints t).map Prod.fst

/-- A one-column table whose data row carries the parseable amount
`"5.00"`. -/
def c2Table : OCRTable := {
  table_id := "p1-t1"
  page := 1
  bbox := [0, 0, 100, 100]
  bbox_rel := [0, 0, 1, 1]
  header_rows := [0]
  column_headers := ["AMOUNT"]
  n_rows := 2
  n_cols := 1
  cells := [
    { cell_id := "p1-t1-r0c0", row := 0, column := 0, text := "AMOUNT",
      bbox := [0, 0, 100, 50], bbox_rel := [0, 0, 1, 1/2], is_header := true },
    { cell_id := "p1-t1-r1c0", row := 1, column := 0, text := "5.00",
      bbox := [0, 50, 100, 100], bbox_rel := [0, 1/2, 1, 1], is_header := false }] }

/-- A grand-total candidate whose evidence carries the anchor id
`"p1-a1"` (the standard anchor-id shape). -/
def c2Candidates : Candidates :=
  [("grand_total", [{
    value_raw := some "10.00"
    evidence := { page := some 1, anchor_id := some "p1-a1",
                  anchor_label := some "total" } }])]

/-- **C2, counterexample.**  `c2Table` has a parseable amount (5.00) in its
last column and is linked to no totals anchor (the preferred-id filter
extracts the prefix `"p1"` of the anchor id `"p1-a1"`, and neither `"p1"`
nor `"p1-a1"` equals the table id `"p1-t1"`), yet the recomputed total is
`none` — not the rightmost-column sum — because the non-empty preferred-id
list filters the table away and no fallback to the first parseable table
exists. -/
theorem C2_counterexample :
    tableAmountValues c2Table none = [⟨500, 2⟩] ∧
    _preferred_table_ids_from_candidates c2Candidates = ["p1"] ∧
    ((_preferred_table_ids_from_candidates c2Candidates).all fun tid =>
      c2Table.table_id ≠ tid) = true ∧
    c2Table.table_id ≠ "p1-a1" ∧
    (_recompute_totals_from_tables (some [c2Table]) none c2Candidates).1 = none ∧
    ((_build_totals_breakdown c2Candidates none (some [c2Table]) none none none).map
      fun b => b.recomputed_total) = some none := by
  refine ⟨by decide, by decide, by decide, by decide, by decide, by decide⟩

/-- `findSome?` over the pair-valued table hits projects to `findSome?` of
the value component. -/
theorem findSome_tableHit_fst (hints : Option OCRDocumentHints)
    (L : List OCRTable) :
    (L.findSome? (tableHit hints)).map Prod.fst =
      L.findSome? (tableLastColSum hints) := by
  induction L with
  | nil => rfl
  | cons a l ih =>
    rw [List.findSome?_cons, List.findSome?_cons]
    cases h : tableHit hints a with
    | none => simpa [tableLastColSum, h] using ih
    | some v => simp [tableLastColSum, h]

/-- All-none functions find nothing. -/
theorem findSome_none_of_all {α β : Type} (f : α → Option β) :
    ∀ (L : List α), (∀ x ∈ L, f x = none) → L.findSome? f = none := by
  intro L
  induction L with
  | nil => intro _; rfl
  | cons a l ih =>
    intro h
    rw [List.findSome?_cons, h a (by simp)]
    exact ih fun x hx => h x (by simp [hx])

/-- **C2, amended.**  (a) When no subtotal/tax/grand-total candidate
carries an anchor id containing a dash, the recomputed total is the
rightmost-column sum of the first table with any parseable amount in its
last column.  (b) When such candidates exist, tables are kept only if their
table id equals the anchor-id prefix before the first dash; if no table id
matches (as with the standard `p{page}-t{n}` / `p{page}-a{n}` id shapes),
table recomputation yields nothing — there is no fallback to the first
parseable table.  (c) When tables yield nothing, the breakdown's recomputed
total is `subtotal + tax` once both parsed. -/
theorem C2_amended_recompute :
    (∀ (tables : List OCRTable) (hints : Option OCRDocumentHints)
        (cands : Candidates),
      _preferred_table_ids_from_candidates cands = [] →
      (_recompute_totals_from_tables (some tables) hints cands).1 =
        tables.findSome? (tableLastColSum hints)) ∧
    (∀ (tables : List OCRTable) (hints : Option OCRDocumentHints)
        (cands : Candidates),
      (tables.all fun t =>
        !((_preferred_table_ids_from_candidates cands).contains t.table_id)) = true →
      _preferred_table_ids_from_candidates cands ≠ [] →
      (_recompute_totals_from_tables (some tables) hints cands).1 = none) ∧
    (∀ (cands : Candidates) (hints : Option OCRDocumentHints)
        (tables : Option (List OCRTable)) (st tx g : Option PyDecimal)
        (b : TotalsBreakdown) (s t : PyDecimal),
      _build_totals_breakdown cands hints tables st tx g = some b →
      (_recompute_totals_from_tables tables hints cands).1 = none →
      st = some s → tx = some t →
      (b.recomputed_total).map (fun v => v.normalized) =
        some (decimalToStr (some (PyDecimal.add s t)))) := by
  refine ⟨?_, ?_, ?_⟩
  · intro tables hints cands hp
    cases tables with
    | nil => simp [_recompute_totals_from_tables]
    | cons a l =>
      simp only [_recompute_totals_from_tables]
      rw [if_neg (List.cons_ne_nil a l)]
      simp only [hp]
      have hsimp : ((a :: l).findSome? fun table =>
          if ([] : List String) ≠ [] ∧ !(([] : List String).contains table.table_id)
          then none else tableHit hints table) =
          (a :: l).findSome? (tableHit hints) := by
        simp
      rw [hsimp, ← findSome_tableHit_fst]
      cases (a :: l).findSome? (tableHit hints) with
      | none => rfl
      | some p => cases p; rfl
  · intro tables hints cands hall hne
    cases tables with
    | nil => simp [_recompute_totals_from_tables]
    | cons a l =>
      simp only [_recompute_totals_from_tables]
      rw [if_neg (List.cons_ne_nil a l)]
      have : ((a :: l).findSome? fun table =>
          if _preferred_table_ids_from_candidates cands ≠ [] ∧
            !((_preferred_table_ids_from_candidates cands).contains table.table_id)
          then none else tableHit hints table) = none := by
        apply findSome_none_of_all
        intro x hx
        rw [if_pos]
        refine ⟨hne, ?_⟩
        have := (List.all_eq_true.mp hall) x hx
        simpa using this
      rw [this]
  · intro cands hints tables st tx g b s t h hrv hst htx
    have hb := build_totals_eq cands hints tables st tx g b h
    subst hb hst htx
    simp [buildTotalsRecord, totalsFallback, hrv]

/-- **C2, witness.**  The amended clauses at concrete inputs: (a) an
unfiltered table sums to 5.00; (b) with the anchor-linked grand-total
candidate present the same table yields nothing; (c) subtotal 10.00 and tax
0.50 fall back to a recomputed total of 10.5. -/
theorem C2_amended_recompute_witness :
    (_recompute_totals_from_tables (some [c2Table]) none []).1 = some ⟨500, 2⟩ ∧
    (_recompute_totals_from_tables (some [c2Table]) none c2Candidates).1 = none ∧
    ((buildTotalsRecord [("subtotal", [{ value_raw := some "10.00", evidence := {} }])]
        none none (some ⟨1000, 2⟩) (some ⟨50, 2⟩) none).recomputed_total).map
      (fun v => v.normalized) = some (some "10.5") := by
  refine ⟨?_, ?_, ?_⟩
  · exact (C2_amended_recompute.1 [c2Table] none [] (by decide)).trans (by decide)
  · exact C2_amended_recompute.2.1 [c2Table] none c2Candidates (by decide) (by decide)
  · exact (C2_amended_recompute.2.2
      [("subtotal", [{ value_raw := some "10.00", evidence := {} }])] none none
      (some ⟨1000, 2⟩) (some ⟨50, 2⟩) none _ ⟨1000, 2⟩ ⟨50, 2⟩ (by decide)
      (by decide) rfl rfl).trans (by decide)

/-- A bare word token, as the hinter sees it. -/
def mkTestToken (text : String) : OCRToken :=
  { id := "p1-l0-w0", text := text, page := 1, reading_order := 2,
    token_type := "word", block_id := some "p1-l0" }

/-- **C4, counterexample.**  The token `"05/13/2024"` does *not* increment
the day-first counter: the pattern's first group (named `d`) is `05` and the
second (named `m`) is `13`, so the branch `month > 12 and day <= 12` fires
and the month-first counter is incremented. -/
theorem C4_counterexample :
    (_apply_token_hints [mkTestToken "05/13/2024"]).2.day_first = 0 ∧
    (_apply_token_hints [mkTestToken "05/13/2024"]).2.month_first = 1 ∧
    dateSepMatch "05/13/2024".data = some (5, 13) := by
  refine ⟨by decide, by decide, by decide⟩

/-- **C4, amended.**  For a token whose stripped text fully matches the
two-numbers-and-a-year date pattern of the hinter (`d{1,2}`, separator
`/` or `-`, `d{1,2}`, separator, `d{2,4}`; and matches none of the
higher-priority money branches), with `a` the **first** numeric component
and `b` the **second**: the day-first counter is incremented exactly when
`a > 12` and `b ≤ 12`, the month-first counter exactly when `b > 12` and
`a ≤ 12`, and the ambiguous counter otherwise.  Hence `"13/05/2024"`
increments the day-first counter while `"05/13/2024"` increments the
month-first counter, contrary to the claim's instance. -/
theorem C4_amended_date_hint (t : OCRToken) (a b : Nat)
    (hsym : moneySymbolMatch (pyStrip t.text).data = none)
    (hword : moneyWordMatch (pyStrip t.text).data = false)
    (hglyph : (pyStrip t.text).data.any isCurrencyGlyph = false)
    (hdate : dateSepMatch (pyStrip t.text).data = some (a, b)) :
    (_apply_token_hints [t]).2.day_first = (if a > 12 && b ≤ 12 then 1 else 0) ∧
    (_apply_token_hints [t]).2.month_first =
      (if !(a > 12 && b ≤ 12) && (b > 12 && a ≤ 12) then 1 else 0) ∧
    (_apply_token_hints [t]).2.ambiguous =
      (if !(a > 12 && b ≤ 12) && !(b > 12 && a ≤ 12) then 1 else 0) := by
  have hne : pyStrip t.text ≠ "" := by
    intro he
    rw [he] at hdate
    have hd0 : dateSepMatch "".data = none := by decide
    rw [hd0] at hdate
    exact Option.noConfusion hdate
  simp only [_apply_token_hints, List.foldl, tokenDelta, if_neg hne,
    classifyTokenText, hsym, hword, hglyph, hdate]
  simp only [Option.isSome_none, Bool.false_or, Bool.or_self, List.any_eq,
    Bool.false_eq_true, if_false]
  by_cases h1 : a > 12 && b ≤ 12
  · simp [h1, applyDelta]
  · by_cases h2 : b > 12 && a ≤ 12
    · simp [h1, h2, applyDelta]
    · simp [h1, h2, applyDelta]

/-- **C4, witness.**  The amended classification applied to `"13/05/2024"`
(first component 13 > 12, second 5 ≤ 12: day-first counter incremented). -/
theorem C4_amended_date_hint_witness :
    (_apply_token_hints [mkTestToken "13/05/2024"]).2.day_first = 1 ∧
    (_apply_token_hints [mkTestToken "13/05/2024"]).2.month_first = 0 := by
  have h := C4_amended_date_hint (mkTestToken "13/05/2024") 13 5
    (by decide) (by decide) (by decide) (by decide)
  exact ⟨(h.1.trans (by decide)), (h.2.1.trans (by decide))⟩

/-- The two-line document with table header `["ITEM", "QTY", "PRICE"]` and
a short row `["A", "2"]`. -/
def c6Doc : List InPage :=
  [{ width := 1000, height := 1000,
     lines := [
       { text := some "ITEM  QTY  PRICE", confidence := some 1,
         bbox := some [10, 10, 400, 30] },
       { text := some "A  2", confidence := some 1,
         bbox := some [10, 40, 400, 60] }] }]

/-- **C6.**  Row reconciliation: for every accepted column count `n > 0`,
the reconciled segment list has exactly `n` entries; short rows are
right-padded with empty strings and long rows have the excess trailing
segments space-joined into the last column.  Concretely, the table built
from header `"ITEM  QTY  PRICE"` and row `"A  2"` has 3 columns, 2 rows of
3 cells each, and its cell at row 1, column 2 has empty text and the
`empty` hint. -/
theorem C6_segment_reconciliation :
    (∀ (segments : List String) (n : Nat), 0 < n →
      (_normalise_segments segments n).length = n ∧
      (segments.length < n →
        _normalise_segments segments n =
          segments ++ List.replicate (n - segments.length) "") ∧
      (n < segments.length →
        _normalise_segments segments n =
          segments.take (n - 1) ++
            [String.intercalate " " (segments.drop (n - 1))])) ∧
    ((extract_document c6Doc).tables.map fun t => (t.n_rows, t.n_cols)) = [(2, 3)] ∧
    ((extract_document c6Doc).tables.map fun t => t.cells.length) = [6] ∧
    ((extract_document c6Doc).tables.map fun t =>
      (t.cells.find? fun c => c.row = 1 && c.column = 2).map fun c =>
        (c.text, metaGet c.hints "empty")) = [some ("", some (.b true))] := by
  refine ⟨?_, by decide, by decide, by decide⟩
  intro segments n hn
  refine ⟨?_, ?_, ?_⟩
  · unfold _normalise_segments
    rw [if_neg (by omega)]
    by_cases h1 : segments.length = n
    · rw [if_pos h1]; exact h1
    · rw [if_neg h1]
      by_cases h2 : segments.length < n
      · rw [if_pos h2]
        simp
        omega
      · rw [if_neg h2]
        have hgt : n - 1 ≤ segments.length := by omega
        simp [List.length_take]
        omega
  · intro hlt
    unfold _normalise_segments
    rw [if_neg (by omega), if_neg (by omega), if_pos hlt]
  · intro hgt
    unfold _normalise_segments
    rw [if_neg (by omega), if_neg (by omega), if_neg (by omega)]

/-- **C6, witness.**  The reconciliation clauses at the concrete header
width 3 with the short row `["A", "2"]` and a long row of four segments. -/
theorem C6_segment_reconciliation_witness :
    (_normalise_segments ["A", "2"] 3).length = 3 ∧
    _normalise_segments ["A", "2"] 3 = ["A", "2", ""] ∧
    _normalise_segments ["A", "B", "C", "D"] 3 = ["A", "B", "C D"] := by
  refine ⟨(C6_segment_reconciliation.1 ["A", "2"] 3 (by decide)).1, ?_, ?_⟩
  · exact ((C6_segment_reconciliation.1 ["A", "2"] 3 (by decide)).2.1
      (by decide)).trans (by decide)
  · exact ((C6_segment_reconciliation.1 ["A", "B", "C", "D"] 3 (by decide)).2.2
      (by decide)).trans (by decide)

/-- **C7.**  Currency normalisation: (a) with no explicit candidate and the
document hint glyph `"$"`, the normalized currency is `"USD"` with
confidence 0.9; (b) with neither a candidate nor a hint the currency field
is absent; (c) every produced currency value either resolved to a code
(confidence 0.9, value type `"currency"`) or kept an unresolvable raw
candidate (confidence 0.5, no normalized code, value type `"string"`). -/
theorem C7_currency_normalisation :
    ((_normalise_currency [] (some { currency_glyphs := ["$"] })).map fun v =>
      (v.normalized, v.confidence, v.value_type)) =
      some (some "USD", some (mkRat 9 10), "currency") ∧
    _normalise_currency [("po_number", [{ value_raw := some "X1", evidence := {} }])]
      none = none ∧
    (∀ (cands : Candidates) (hints : Option OCRDocumentHints)
        (v : NormalizedFieldValue),
      _normalise_currency cands hints = some v →
      (v.confidence = some (mkRat 9 10) ∧ v.normalized ≠ none ∧
        v.value_type = "currency") ∨
      (v.confidence = some (mkRat 1 2) ∧ v.normalized = none ∧
        v.value_type = "string")) ∧
    (∀ (cands : Candidates) (hints : Option OCRDocumentHints),
      _select_candidate (if cands ≠ [] then candGet cands "currency" else none) = none →
      (match hints with
       | some h => h.currency_glyphs = []
       | none => True) →
      _normalise_currency cands hints = none) := by
  refine ⟨by decide, by decide, ?_, ?_⟩
  · intro cands hints v h
    unfold _normalise_currency at h
    revert h
    generalize _select_candidate (if cands ≠ [] then candGet cands "currency" else none) =
      candidate
    intro h
    unfold currencyFromCandidate at h
    dsimp only [] at h
    cases candidate with
    | none =>
      cases hdc : (_detect_currency none hints none).1 with
      | none =>
        rw [hdc] at h
        split at h
        · exact absurd h (by simp)
        · injection h with h
          subst h
          right
          exact ⟨rfl, rfl, rfl⟩
      | some code =>
        rw [hdc] at h
        split at h
        · exact absurd h (by simp)
        · injection h with h
          subst h
          left
          exact ⟨rfl, by simp, rfl⟩
    | some c =>
      cases hdc : (_detect_currency c.value_raw hints (some c)).1 with
      | none =>
        rw [hdc] at h
        split at h
        · exact absurd h (by simp)
        · injection h with h
          subst h
          right
          exact ⟨rfl, rfl, rfl⟩
      | some code =>
        rw [hdc] at h
        split at h
        · exact absurd h (by simp)
        · injection h with h
          subst h
          left
          exact ⟨rfl, by simp, rfl⟩
  · intro cands hints hcand hglyph
    unfold _normalise_currency
    rw [hcand]
    have hdc : (_detect_currency none hints none).1 = none := by
      unfold _detect_currency
      cases hints with
      | none => rfl
      | some h =>
        simp only at hglyph
        simp [hglyph]
    unfold currencyFromCandidate
    simp [hdc, optStrTruthy]

/-- The value `_normalise_currency` produces for the unresolvable
candidate `"zzz"`. -/
def c7UnresolvedValue : NormalizedFieldValue :=
  { raw := some "zzz"
    normalized := none
    value_type := "string"
    parser := "deterministic.currency"
    confidence := some (mkRat 1 2)
    metadata := [] }

/-- **C7, witness.**  The confidence dichotomy applied to the value the
code produces for the unresolvable candidate `"zzz"` (which lands in the
0.5/unresolved shape), and the absence clause applied to empty candidates
with no hints. -/
theorem C7_currency_normalisation_witness :
    ((c7UnresolvedValue.confidence = some (mkRat 9 10) ∧
      c7UnresolvedValue.normalized ≠ none ∧
      c7UnresolvedValue.value_type = "currency") ∨
     (c7UnresolvedValue.confidence = some (mkRat 1 2) ∧
      c7UnresolvedValue.normalized = none ∧
      c7UnresolvedValue.value_type = "string")) ∧
    _normalise_currency [] none = none := by
  constructor
  · exact C7_currency_normalisation.2.2.1
      [("currency", [{ value_raw := some "zzz", evidence := {} }])] none
      c7UnresolvedValue (by decide)
  · exact C7_currency_normalisation.2.2.2 [] none (by decide) trivial

/-- **C10.**  When every primary-format attempt on the cleaned candidate
fails but the relaxed retry — both the input and the format strings with
`.` and `-` coerced to `/` — succeeds, the returned confidence is the fixed
constant 0.8 (`mkRat 4 5`), independent of the document's day-first
probability hint; the `max(p, 1 − p)` confidence is only ever attached to
first-pass successes. -/
theorem C10_relaxed_date_confidence (raw0 : String) (hints : Option OCRDocumentHints)
    (cleaned : String) (pref : Option ℚ) (normalised : String)
    (r : String × (Nat × Nat × Nat))
    (hne : pyStrip raw0 ≠ "")
    (hcl : cleaned =
      pyStrip ⟨replaceDoubleSpace ((pyStrip raw0).data.map fun c =>
        if c = ',' then ' ' else c)⟩)
    (hpref : pref = (match hints with | some h => h.day_first_prob | none => none))
    (hfirst : firstStrptime cleaned id (dateFormatCandidates pref) = none)
    (hnorm : normalised =
      (⟨cleaned.data.map fun c => if c = '.' || c = '-' then '/' else c⟩ : String))
    (hdiff : normalised ≠ cleaned)
    (hrel : firstStrptime normalised fmtSepToSlash (dateFormatCandidates pref) = some r) :
    (_parse_date (some raw0) hints).2.1 = some (mkRat 4 5) := by
  simp only [_parse_date]
  rw [if_neg hne, ← hcl, ← hpref, hfirst, ← hnorm, if_pos hdiff, hrel]

/-- **C10, witness.**  `"13.05/2024"` (mixed separators) fails every
primary format, while the relaxed pass parses it as `%d/%m/%Y`; with a
day-first hint of 0.3 (where `max(p, 1 − p)` would be 0.7) the confidence
is still 0.8. -/
theorem C10_relaxed_date_confidence_witness :
    (_parse_date (some "13.05/2024")
      (some { day_first_prob := some (mkRat 3 10) })).2.1 = some (mkRat 4 5) := by
  exact C10_relaxed_date_confidence "13.05/2024"
    (some { day_first_prob := some (mkRat 3 10) })
    "13.05/2024" (some (mkRat 3 10)) "13/05/2024" ("%d/%m/%Y", (2024, 5, 13))
    (by decide) (by decide) (by decide) (by decide) (by decide) (by decide) (by decide)

/-- Every anchor's id is `p{page}-a{n}` where `n − 1` is the anchor's
position in the document-wide anchor list. -/
def anchorIdsSequential (l : List OCRAnchor) : Prop :=
  ∀ (i : Nat) (h : i < l.length),
    l[i].anchor_id = mkAnchorId l[i].page (i + 1)

/-- The block loop preserves document-wide sequential anchor ids. -/
theorem anchorsInBlocks_sequential (pageNumber : Nat) (width height : Int)
    (pageTokens : List OCRToken) (zones : List OCRZone) (cw : Int) :
    ∀ (blocks : List OCRBlock) (acc : List OCRAnchor),
      anchorIdsSequential acc →
      anchorIdsSequential
        (anchorsInBlocks pageNumber width height pageTokens zones cw blocks acc) := by
  intro blocks
  induction blocks with
  | nil => intro acc hacc; exact hacc
  | cons block rest ih =>
    intro acc hacc
    unfold anchorsInBlocks
    cases hm : _match_anchor_label block.text with
    | none => exact ih acc hacc
    | some label =>
      apply ih
      intro i h
      by_cases hi : i < acc.length
      · rw [List.getElem_append_left hi]
        exact hacc i hi
      · have hieq : i = acc.length := by
          have hlen := h
          rw [List.length_append, List.length_singleton] at hlen
          omega
        subst hieq
        rw [List.getElem_concat_length _ _ _ rfl]

/-- The page loop preserves document-wide sequential anchor ids. -/
theorem anchorsInPages_sequential (zbp : List (Nat × List OCRZone))
    (ps : List (Int × Int)) (cw : Int) :
    ∀ (pages : List OCRPage) (acc : List OCRAnchor),
      anchorIdsSequential acc →
      anchorIdsSequential (anchorsInPages zbp ps cw pages acc) := by
  intro pages
  induction pages with
  | nil => intro acc hacc; exact hacc
  | cons page rest ih =>
    intro acc hacc
    unfold anchorsInPages
    cases hb : page.blocks with
    | none => exact ih acc hacc
    | some blocks =>
      cases blocks with
      | nil => exact ih acc hacc
      | cons b bs =>
        exact ih _ (anchorsInBlocks_sequential _ _ _ _ _ _ _ _ hacc)

/-- A two-page document whose only anchor-bearing block on each page is a
vendor label. -/
def c8Doc : List InPage :=
  [{ width := 500, height := 500,
     lines := [{ text := some "Vendor: Acme", confidence := some 1,
                 bbox := some [10, 10, 100, 30] }] },
   { width := 500, height := 500,
     lines := [{ text := some "Vendor: Zen", confidence := some 1,
                 bbox := some [10, 10, 100, 30] }] }]

/-- **C8, counterexample.**  The first anchor discovered on page 2 has id
`p2-a2`, not `p2-a1`: the counter `n` is the document-wide anchor count,
which does not restart at 1 on each page. -/
theorem C8_counterexample :
    ((extract_document c8Doc).anchors.map fun a => (a.anchor_id, a.page)) =
      [("p1-a1", 1), ("p2-a2", 2)] ∧
    ("p2-a2" : String) ≠ "p2-a1" := by
  refine ⟨by decide, by decide⟩

/-- **C8, amended.**  Anchor ids follow `p{page}-a{n}` where `n` counts
anchors sequentially across the whole document in discovery order (page
order, blocks in order): the anchor at zero-based position `i` of the
returned list has id `p{its page}-a{i+1}`.  Within one page ids therefore
increase by one per anchor in discovery order, but the counter does not
restart at 1 on later pages. -/
theorem C8_amended_anchor_ids (pages : List OCRPage)
    (zbp : List (Nat × List OCRZone)) (ps : List (Int × Int)) :
    ∀ (i : Nat) (h : i < (_detect_anchors pages zbp ps).length),
      (_detect_anchors pages zbp ps)[i].anchor_id =
        mkAnchorId (_detect_anchors pages zbp ps)[i].page (i + 1) := by
  exact anchorsInPages_sequential zbp ps 300 pages []
    (fun i h => absurd h (by simp))

/-- The pages of the two-page vendor document, as the anchor detector
receives them. -/
def c8Pages : List OCRPage := (hintPages (_normalise_pages c8Doc).1)

/-- **C8, amended, witness.**  The sequential-id law applied at position 0
of the two-page vendor document. -/
theorem C8_amended_anchor_ids_witness :
    0 < (_detect_anchors c8Pages [] [(500, 500), (500, 500)]).length ∧
    ((_detect_anchors c8Pages [] [(500, 500), (500, 500)]).get
        ⟨0, by decide⟩).anchor_id =
      mkAnchorId ((_detect_anchors c8Pages [] [(500, 500), (500, 500)]).get
        ⟨0, by decide⟩).page 1 := by
  refine ⟨by decide, ?_⟩
  have h := C8_amended_anchor_ids c8Pages [] [(500, 500), (500, 500)] 0 (by decide)
  simpa using h

/-- Reading orders of the word tokens of one line: consecutive values
starting one past the incoming counter. -/
theorem mkWordTokens_reading_orders (blockId : String) (pageIndex : Nat)
    (conf : Option ℚ) (bbox bboxRel : List ℚ) :
    ∀ (ws : List String) (wordIndex ro : Nat),
      ((mkWordTokens blockId pageIndex conf bbox bboxRel ws wordIndex ro).map
        fun t => t.reading_order) = List.range' (ro + 1) ws.length := by
  intro ws
  induction ws with
  | nil => intro wordIndex ro; rfl
  | cons w rest ih =>
    intro wordIndex ro
    simp only [mkWordTokens, List.map_cons, List.length_cons, ih]
    rw [List.range'_succ]

/-- Every word token of a line carries a reading order strictly above the
counter value handed to the word loop. -/
theorem mkWordTokens_reading_order_gt (blockId : String) (pageIndex : Nat)
    (conf : Option ℚ) (bbox bboxRel : List ℚ) :
    ∀ (ws : List String) (wordIndex ro : Nat) (t : OCRToken),
      t ∈ mkWordTokens blockId pageIndex conf bbox bboxRel ws wordIndex ro →
      ro < t.reading_order := by
  intro ws
  induction ws with
  | nil => intro wi ro t ht; simp [mkWordTokens] at ht
  | cons w rest ih =>
    intro wi ro t ht
    simp only [mkWordTokens, List.mem_cons] at ht
    rcases ht with h | h
    · subst h; exact Nat.lt_succ_self ro
    · exact Nat.lt_of_succ_lt (ih (wi + 1) (ro + 1) t h)

/-- Reading orders and final counter of one processed line: the line token
takes the next value, its words the following ones. -/
theorem processLine_reading_orders (pageIndex lineIndex : Nat)
    (width height : Int) (ro : Nat) (line : InLine) :
    (((processLine pageIndex lineIndex width height ro line).2.1).map
        fun t => t.reading_order) =
      List.range' (ro + 1)
        ((_split_words (pyStrip (line.text.getD ""))).length + 1) ∧
    (processLine pageIndex lineIndex width height ro line).2.2.2 =
      ro + ((_split_words (pyStrip (line.text.getD ""))).length + 1) := by
  constructor
  · simp only [processLine, List.map_cons, mkWordTokens_reading_orders]
    rw [List.range'_succ]
  · simp only [processLine]
    omega

/-- One step of the line loop, written with projections instead of the
tuple-destructuring lets. -/
theorem processLines_cons (pageIndex : Nat) (width height : Int)
    (line : InLine) (rest : List InLine) (lineIndex ro : Nat) :
    processLines pageIndex width height (line :: rest) lineIndex ro =
      ((processLine pageIndex lineIndex width height ro line).1 ::
         (processLines pageIndex width height rest (lineIndex + 1)
           (processLine pageIndex lineIndex width height ro line).2.2.2).1,
       (processLine pageIndex lineIndex width height ro line).2.1 ++
         (processLines pageIndex width height rest (lineIndex + 1)
           (processLine pageIndex lineIndex width height ro line).2.2.2).2.1,
       (processLine pageIndex lineIndex width height ro line).2.2.1 ::
         (processLines pageIndex width height rest (lineIndex + 1)
           (processLine pageIndex lineIndex width height ro line).2.2.2).2.2.1,
       (processLines pageIndex width height rest (lineIndex + 1)
         (processLine pageIndex lineIndex width height ro line).2.2.2).2.2.2) :=
  rfl

/-- Reading orders of all tokens of a run of lines: consecutive from one
past the incoming counter, which advances by the token count. -/
theorem processLines_reading_orders (pageIndex : Nat) (width height : Int) :
    ∀ (lines : List InLine) (lineIndex ro : Nat),
      ∃ n, (((processLines pageIndex width height lines lineIndex ro).2.1).map
          fun t => t.reading_order) = List.range' (ro + 1) n ∧
        (processLines pageIndex width height lines lineIndex ro).2.2.2 =
          ro + n := by
  intro lines
  induction lines with
  | nil => intro li ro; exact ⟨0, rfl, rfl⟩
  | cons line rest ih =>
    intro li ro
    obtain ⟨h1, h2⟩ := processLine_reading_orders pageIndex li width height ro line
    obtain ⟨n2, h3, h4⟩ := ih (li + 1)
      ((processLine pageIndex li width height ro line).2.2.2)
    refine ⟨(_split_words (pyStrip (line.text.getD ""))).length + 1 + n2, ?_, ?_⟩
    · rw [h2] at h3
      rw [processLines_cons]
      simp only [List.map_append, h1, h2, h3]
      rw [show ro + ((_split_words (pyStrip (line.text.getD ""))).length + 1) + 1 =
            (ro + 1) + ((_split_words (pyStrip (line.text.getD ""))).length + 1)
          from by omega,
        List.range'_append_1, Nat.add_comm n2]
    · rw [processLines_cons]
      dsimp only
      rw [h4, h2]
      omega

/-- One step of the page loop, written with projections instead of the
tuple-destructuring lets. -/
theorem processPages_cons (p : InPage) (rest : List InPage)
    (pageIndex ro : Nat) :
    processPages (p :: rest) pageIndex ro =
      (({ page_number := pageIndex
          text := String.intercalate "\n"
            (((processLines pageIndex p.width p.height p.lines 0 ro).2.2.1).filter
              fun t => t ≠ "")
          width := some p.width
          height := some p.height
          blocks := if (processLines pageIndex p.width p.height p.lines 0 ro).1 = []
            then none
            else some (processLines pageIndex p.width p.height p.lines 0 ro).1
          tokens := if (processLines pageIndex p.width p.height p.lines 0 ro).2.1 = []
            then none
            else some (processLines pageIndex p.width p.height p.lines 0 ro).2.1 } :
          OCRPage) ::
         (processPages rest (pageIndex + 1)
           (processLines pageIndex p.width p.height p.lines 0 ro).2.2.2).1,
       (processLines pageIndex p.width p.height p.lines 0 ro).2.1 ++
         (processPages rest (pageIndex + 1)
           (processLines pageIndex p.width p.height p.lines 0 ro).2.2.2).2.1,
       (processPages rest (pageIndex + 1)
         (processLines pageIndex p.width p.height p.lines 0 ro).2.2.2).2.2) :=
  rfl

/-- Reading orders of the document token list: consecutive from one past the
incoming counter, which advances by the token count. -/
theorem processPages_reading_orders :
    ∀ (pages : List InPage) (pageIndex ro : Nat),
      ∃ n, (((processPages pages pageIndex ro).2.1).map
          fun t => t.reading_order) = List.range' (ro + 1) n ∧
        (processPages pages pageIndex ro).2.2 = ro + n := by
  intro pages
  induction pages with
  | nil => intro pi ro; exact ⟨0, rfl, rfl⟩
  | cons p rest ih =>
    intro pi ro
    obtain ⟨n1, h1, h2⟩ := processLines_reading_orders pi p.width p.height p.lines 0 ro
    obtain ⟨n2, h3, h4⟩ := ih (pi + 1) ((processLines pi p.width p.height p.lines 0 ro).2.2.2)
    refine ⟨n1 + n2, ?_, ?_⟩
    · rw [h2] at h3
      rw [processPages_cons]
      simp only [List.map_append, h1, h2, h3]
      rw [show ro + n1 + 1 = (ro + 1) + n1 from by omega,
        List.range'_append_1, Nat.add_comm n2]
    · rw [processPages_cons]
      dsimp only
      rw [h4, h2]
      omega

/-- A block whose token list starts with its line token, every word token
numbered after it. -/
def lineTokenLeads (b : OCRBlock) : Prop :=
  ∃ lt ws, b.tokens = some (lt :: ws) ∧ lt.token_type = "line" ∧
    ∀ w ∈ ws, lt.reading_order < w.reading_order

/-- The block built for one line satisfies `lineTokenLeads`. -/
theorem processLine_lineTokenLeads (pageIndex lineIndex : Nat)
    (width height : Int) (ro : Nat) (line : InLine) :
    lineTokenLeads (processLine pageIndex lineIndex width height ro line).1 := by
  refine ⟨_, _, rfl, rfl, ?_⟩
  intro w hw
  exact mkWordTokens_reading_order_gt _ _ _ _ _ _ _ _ w hw

/-- Every block built by the line loop satisfies `lineTokenLeads`. -/
theorem processLines_lineTokenLeads (pageIndex : Nat) (width height : Int) :
    ∀ (lines : List InLine) (lineIndex ro : Nat),
      ∀ b ∈ (processLines pageIndex width height lines lineIndex ro).1,
        lineTokenLeads b := by
  intro lines
  induction lines with
  | nil => intro li ro b hb; simp [processLines] at hb
  | cons line rest ih =>
    intro li ro b hb
    rw [processLines_cons] at hb
    rcases List.mem_cons.mp hb with h | h
    · rw [h]; exact processLine_lineTokenLeads pageIndex li width height ro line
    · exact ih (li + 1) _ b h

/-- Every block of every page built by the page loop satisfies
`lineTokenLeads`. -/
theorem processPages_lineTokenLeads :
    ∀ (pages : List InPage) (pageIndex ro : Nat),
      ∀ p ∈ (processPages pages pageIndex ro).1, ∀ bs, p.blocks = some bs →
        ∀ b ∈ bs, lineTokenLeads b := by
  intro pages
  induction pages with
  | nil => intro pi ro p hp; simp [processPages] at hp
  | cons q rest ih =>
    intro pi ro p hp bs hbs b hb
    rw [processPages_cons] at hp
    rcases List.mem_cons.mp hp with h | h
    · subst h
      dsimp only at hbs
      by_cases hnil : (processLines pi q.width q.height q.lines 0 ro).1 = []
      · rw [if_pos hnil] at hbs
        exact absurd hbs (by simp)
      · rw [if_neg hnil] at hbs
        have hbs2 : bs = (processLines pi q.width q.height q.lines 0 ro).1 :=
          (Option.some_inj.mp hbs).symm
        exact processLines_lineTokenLeads pi q.width q.height q.lines 0 ro b
          (hbs2 ▸ hb)
    · exact ih (pi + 1) _ p h bs hbs b hb

/-- **C9.**  Over all emitted tokens, `reading_order` runs 1, 2, … in the
order the tokens are emitted (pages in order, lines in order, each line
token before its word tokens), hence is strictly increasing and assigned
exactly once per token; determinism for identical input is immediate since
the embedded normaliser is a function of the document alone. -/
theorem C9_reading_order (doc : List InPage) :
    ((_normalise_pages doc).2.map fun t => t.reading_order) =
      List.range' 1 (_normalise_pages doc).2.length ∧
    List.Pairwise (fun a b => a < b)
      ((_normalise_pages doc).2.map fun t => t.reading_order) ∧
    (∀ p ∈ (_normalise_pages doc).1, ∀ bs, p.blocks = some bs →
      ∀ b ∈ bs, ∃ lt ws, b.tokens = some (lt :: ws) ∧
        lt.token_type = "line" ∧
        ∀ w ∈ ws, lt.reading_order < w.reading_order) := by
  obtain ⟨n, hmap, -⟩ := processPages_reading_orders doc 1 0
  have hsnd : (_normalise_pages doc).2 = (processPages doc 1 0).2.1 := rfl
  have hmap2 : ((_normalise_pages doc).2.map fun t => t.reading_order) =
      List.range' 1 n := by
    rw [hsnd]; simpa using hmap
  have hlen2 : (_normalise_pages doc).2.length = n := by
    have h := congrArg List.length hmap2
    simpa using h
  refine ⟨by rw [hmap2, hlen2], ?_, ?_⟩
  · rw [hmap2]; exact List.pairwise_lt_range' ..
  · intro p hp bs hbs b hb
    have hfst : (_normalise_pages doc).1 =
        (if (processPages doc 1 0).1 = [] then
            [{ page_number := 1, text := "", width := none, height := none,
               blocks := none, tokens := none }]
          else (processPages doc 1 0).1) := rfl
    rw [hfst] at hp
    by_cases hnil : (processPages doc 1 0).1 = []
    · rw [if_pos hnil] at hp
      have hpd := List.mem_singleton.mp hp
      rw [hpd] at hbs
      exact absurd hbs (by simp)
    · rw [if_neg hnil] at hp
      exact processPages_lineTokenLeads doc 1 0 p hp bs hbs b hb

/-- A one-page, one-line document used to exercise the reading-order law at
a concrete input (zero page size keeps every relative box at the exact
`[0, 0, 0, 0]` fallback, so record equality is decidable by evaluation). -/
def c9Doc : List InPage :=
  [{ width := 0, height := 0,
     lines := [{ text := some "PO 7", confidence := some 1,
                 bbox := some [0, 0, 10, 10] }] }]

/-- The first normalised page of `c9Doc`. -/
def c9Page : OCRPage :=
  ((_normalise_pages c9Doc).1).getD 0
    { page_number := 0, text := "", width := none, height := none,
      blocks := none, tokens := none }

/-- The blocks of `c9Page`. -/
def c9Blocks : List OCRBlock := c9Page.blocks.getD []

/-- The first block of `c9Page`. -/
def c9Block : OCRBlock :=
  c9Blocks.getD 0
    { block_id := "", block_type := none, text := "", confidence := none,
      bbox := none, bbox_rel := none, page := none, reading_order := none,
      tokens := none }

/-- **C9, witness.**  The line-before-words clause instantiated on the
one-line document: its block's token list starts with the line token and
each word token is numbered after it. -/
theorem C9_reading_order_witness :
    c9Page ∈ (_normalise_pages c9Doc).1 ∧
    c9Page.blocks = some c9Blocks ∧
    c9Block ∈ c9Blocks ∧
    ∃ lt ws, c9Block.tokens = some (lt :: ws) ∧ lt.token_type = "line" ∧
      ∀ w ∈ ws, lt.reading_order < w.reading_order := by
  refine ⟨by decide, by decide, by decide, ?_⟩
  exact (C9_reading_order c9Doc).2.2 c9Page (by decide) c9Blocks (by decide)
    c9Block (by decide)

end PepsiOrder




